import Mathlib

/-!
# Verification of the automancy renderer core (`src/renderer.rs`)

Shallow embedding of the render/simulation synchronization and draw-batching
pipeline of `automancy`'s `Renderer` (file `src/renderer.rs`), together with
proofs of the specified properties.

Modelling conventions:
* `f32`/`f64` values (times, coordinates, colors, matrix entries) are
  idealized as exact rationals `ℚ`; glam's `Matrix4` becomes
  `Matrix (Fin 4) (Fin 4) ℚ`.
* `Instant`s are rationals (seconds); `Duration` subtraction saturates at 0
  exactly as `Instant::duration_since` does.
* `hashbrown::HashMap`s are association lists; a `collect::<HashMap<_,_>>`
  makes later bindings overwrite earlier ones, so lookup takes the *last*
  binding (`animLookup` below).
* Rust functions that panic on malformed data (`unwrap` on a registry lookup,
  `last().unwrap()` on keyframe inputs, slice indexing) are totalized with
  explicit defaults; every claim that depends on such a spot carries the
  well-formedness hypotheses under which the Rust code does not panic.
-/

namespace Automancy

/-- Resource / model identifiers (`automancy_defs::id::Id`, an interned id). -/
abbrev Id := Nat

/-- Hex-grid coordinates (`automancy_defs::coord::TileCoord`). -/
abbrev TileCoord := Int × Int

/-- Embeds `automancy_defs::math::Vec4` (an f32 4-vector), idealized over `ℚ`. -/
abbrev Vec4 := ℚ × ℚ × ℚ × ℚ

/-- glam `Matrix4` (4×4 f32 matrix), idealized over `ℚ`. -/
abbrev Matrix4 := Matrix (Fin 4) (Fin 4) ℚ

/-- Rust's `%` on nonnegative floats (`elapsed % last` in `try_add_animation`,
`src/renderer.rs:139`), idealized to exact arithmetic: for a divisor `d > 0`
this is the remainder `x - d * ⌊x / d⌋ ∈ [0, d)`. (For `x ≥ 0`, truncated and
floored division agree, so this is exactly Rust's `%`.) `Rat.floor` is used
rather than `⌊·⌋` so that the definition evaluates by kernel reduction. -/
def fmod (x d : ℚ) : ℚ := x - d * ((x / d).floor : ℤ)

/-- One animation channel of a loaded model: `anim` in `try_add_animation`
(`src/renderer.rs:135-143`), with `target` the animated part/node, `inputs`
the ascending keyframe times and `outputs` the per-keyframe transforms. -/
structure AnimationTrack where
  target : Id
  inputs : List ℚ
  outputs : List Matrix4
deriving DecidableEq

/-- The track's total duration: `anim.inputs.last().unwrap()`
(`src/renderer.rs:138`); totalized with default `0` for empty `inputs`
(where the Rust code would panic). -/
def trackLast (a : AnimationTrack) : ℚ := a.inputs.getLastD 0

/-- Embeds `wrapped = elapsed % last` (`src/renderer.rs:139`). -/
def trackWrapped (elapsed : ℚ) (a : AnimationTrack) : ℚ :=
  fmod elapsed (trackLast a)

/-- Embeds `anim.inputs.partition_point(|v| *v < wrapped)` (`src/renderer.rs:140`).
Rust's `partition_point` returns the index of the first element of the second
partition; on a list partitioned by the predicate (the case the `slice`
contract requires, here guaranteed by ascending keyframe times) that index is
the length of the longest prefix satisfying the predicate. -/
def partition_point (p : ℚ → Bool) (l : List ℚ) : Nat :=
  (l.takeWhile p).length

/-- The keyframe index chosen for a track at a given elapsed time
(`src/renderer.rs:140`). -/
def trackIndex (elapsed : ℚ) (a : AnimationTrack) : Nat :=
  partition_point (fun v => decide (v < trackWrapped elapsed a)) a.inputs

/-- Embeds `(anim.target, anim.outputs[index])` (`src/renderer.rs:142`); the indexing
is totalized with default `1` (= `Matrix4::IDENTITY`); claim C10 shows the
index is in bounds for well-formed tracks. -/
def sampleTrack (elapsed : ℚ) (a : AnimationTrack) : Id × Matrix4 :=
  (a.target, a.outputs.getD (trackIndex elapsed a) 1)

/-- Embeds `slice_group_by::binary_group_by_key(|v| v.0)` (`src/renderer.rs:147`):
splits a list into maximal runs of consecutive elements sharing the same key
(first component). -/
def binary_group_by_key {β : Type} : List (Id × β) → List (List (Id × β))
  | [] => []
  | x :: xs =>
    match binary_group_by_key xs with
    | [] => [[x]]
    | [] :: gs => [x] :: [] :: gs
    | (y :: ys) :: gs =>
      if x.1 = y.1 then (x :: y :: ys) :: gs else [x] :: (y :: ys) :: gs

/-- Lookup in an association list built by successive `HashMap` inserts (a
`collect::<HashMap<_, _>>`): the *last* binding of a key wins. -/
def animLookup {β : Type} : List (Id × β) → Id → Option β
  | [], _ => none
  | (a, v) :: rest, k =>
    match animLookup rest k with
    | some w => some w
    | none => if a = k then some v else none

/-- The per-model animation sample (`src/renderer.rs:135-149`): sample every
track at the elapsed time, group consecutive tracks with equal targets, and
fold each group with matrix multiplication starting from
`Matrix4::IDENTITY`; the groups are then collected into a `HashMap` keyed by
target (see `animLookup` for its lookup semantics). -/
def sampleModel (elapsed : ℚ) (anims : List AnimationTrack) : List (Id × Matrix4) :=
  (binary_group_by_key (anims.map (sampleTrack elapsed))).map
    (fun g => ((g.headD (0, 1)).1, g.foldl (fun acc v => acc * v.2) 1))

/-- Per-frame animation map (`gpu::AnimationMap`): model id ↦ (part ↦
transform). -/
abbrev AnimationMap := List (Id × List (Id × Matrix4))

/-- The registry data of one tile type that `Renderer::render` reads:
its configured `model`, and its `data` map's `inactive_model` and
`direction_color` entries (`src/renderer.rs:324-327,405-410,429-434`). -/
structure TileDef where
  model : Id
  inactiveModel : Option Id
  directionColor : Option Vec4
deriving DecidableEq

/-- The slice of `automancy_resources::ResourceManager` the renderer reads.
`allModels` is `all_models : Id → (meshes, animations)` with the mesh data
elided (no claim mentions it); the remaining fields are the registry lookups
performed in `Renderer::render`. -/
structure ResourceManager where
  allModels : List (Id × List AnimationTrack)
  tiles : List (Id × TileDef)
  items : List (Id × Id)
  modelMissing : Id
  noneTile : Id
  cube1x1 : Id
deriving DecidableEq

/-- Embeds `try_add_animation` (`src/renderer.rs:125-160`): if the model has no entry
in the per-frame animation map yet, look its animation tracks up in the
resource manager and record the sampled per-part transforms; returns whether
the model is known at all. The elapsed time
(`Instant::now().duration_since(start_instant)`, `src/renderer.rs:132`) is
passed in explicitly. -/
def try_add_animation (rm : ResourceManager) (elapsed : ℚ) (model : Id)
    (animationMap : AnimationMap) : Bool × AnimationMap :=
  if (animLookup animationMap model).isSome then
    (true, animationMap)
  else
    match (rm.allModels.lookup model) with
    | some anims => (true, animationMap ++ [(model, sampleModel elapsed anims)])
    | none => (false, animationMap)

/-! ### The per-frame render pipeline (`Renderer::render` / `inner_render`) -/

/-- Embeds `wgpu::SurfaceError`: the failure modes of swapchain texture
acquisition. -/
inductive SurfaceError where
  | timeout
  | outdated
  | lost
  | outOfMemory
deriving DecidableEq

deriving instance DecidableEq for Except

/-- Embeds `window.inner_size()` (`src/renderer.rs:176`). -/
structure WindowSize where
  width : Nat
  height : Nat
deriving DecidableEq

/-- The size of an acquired surface texture (`output.texture.size()`,
`src/renderer.rs:507`). -/
structure SurfaceTexture where
  width : Nat
  height : Nat
deriving DecidableEq

/-- Embeds `automancy_defs::rendering::InstanceData`, restricted to the fields any
claim inspects: the color offset (default zero) and the light position. The
model matrix is elided — the claims never read it — so the
`with_model_matrix`/`add_model_matrix` calls on instances vanish in this
embedding. -/
structure InstanceData where
  colorOffset : Vec4
  lightPos : Option (ℚ × ℚ × ℚ)
deriving DecidableEq

/-- Embeds `InstanceData::default()`. -/
def InstanceData.mkDefault : InstanceData := ⟨(0, 0, 0, 0), none⟩

/-- Embeds `InstanceData::with_color_offset`. -/
def InstanceData.with_color_offset (i : InstanceData) (c : Vec4) : InstanceData :=
  { i with colorOffset := c }

/-- Embeds `InstanceData::with_light_pos(camera_pos_float, None)`. -/
def InstanceData.with_light_pos (i : InstanceData) (p : ℚ × ℚ × ℚ) : InstanceData :=
  { i with lightPos := some p }

/-- Embeds `crate::game::RenderUnit` (field `instance` renamed `inst`: `instance` is
a Lean keyword). -/
structure RenderUnit where
  inst : InstanceData
  modelOverride : Option Id
deriving DecidableEq

/-- The free-form per-tile `DataMap`, restricted to the keys
`Renderer::render` reads: `direction` (a `Data::Coord`), `link` (a
`Data::Coord`), `item` (a `Data::Id`) (`src/renderer.rs:282,296,313-322`). -/
structure DataMap where
  direction : Option TileCoord
  link : Option TileCoord
  item : Option Id
deriving DecidableEq

/-- One render-info snapshot: the `(GetAllRenderUnits, GetAllData)` reply pair
stored in `render_info_cache` (`src/renderer.rs:71-78,213`). -/
structure Snapshot where
  renderInfo : List (TileCoord × (Id × RenderUnit))
  allData : List (TileCoord × DataMap)
deriving DecidableEq

/-- Embeds `crate::game::TransactionRecords`: `(source, destination) ↦ [(instant,
item model)]`; only the fields `Renderer::render` reads are kept
(`src/renderer.rs:249-274`). -/
abbrev TransactionRecords := List ((TileCoord × TileCoord) × List (ℚ × Id))

/-- Embeds `gpu::IndirectInstanceDrawData<()>`. Modelled from the spec (module
`gpu` is not among the sources): instances stable-sorted by model id, plus
one indirect-draw descriptor `(model, run length)` per maximal run of equal
models; vertex/matrix buffer contents elided. -/
structure GameData where
  instances : List (InstanceData × Id)
  draws : List (Id × Nat)
deriving DecidableEq

/-- Stable insertion (by model id) used by the batcher model. -/
def insertByModel (x : InstanceData × Id) :
    List (InstanceData × Id) → List (InstanceData × Id)
  | [] => [x]
  | y :: ys => if x.2 ≤ y.2 then x :: y :: ys else y :: insertByModel x ys

/-- Stable sort by model id (spec 4.2: "stable-sort instances by model
identifier"). -/
def sortByModel : List (InstanceData × Id) → List (InstanceData × Id)
  | [] => []
  | x :: xs => insertByModel x (sortByModel xs)

/-- Modelled from the spec: `gpu::indirect_instance` (module `gpu` is not
among the sources) — group the stable-sorted instances into one descriptor
per model run. -/
def indirect_instance (l : List (InstanceData × Id)) : GameData :=
  let sorted := sortByModel l
  ⟨sorted,
    (binary_group_by_key (sorted.map (fun v => (v.2, v.1)))).map
      (fun g => ((g.headD (0, InstanceData.mkDefault)).1, g.length))⟩

/-- Modelled from the spec: the geometric helpers of `automancy_defs::math`
and the camera (`hex_to_world_pos`, `tile_direction_to_angle`, the culling
range, and the screen bounding box already offset by `(2, 2)` as at
`src/renderer.rs:357-362`) — crate code not under `src/`. Claims quantify
over arbitrary geometry. -/
structure Geometry where
  hexToWorldPos : TileCoord → ℚ × ℚ
  tileDirectionToAngle : TileCoord → Option ℚ
  cullingRangeTiles : List TileCoord
  inCullingRange : TileCoord → Bool
  screenBound : ℚ × ℚ

/-- The inputs `Renderer::render` draws from its environment on one call:
the two clock reads (`Instant::now` at the update gate, and the elapsed time
since `start_instant` used for animation sampling), the window size, the
result surface acquisition would produce, the screenshot flag and the camera
position. -/
structure FrameInput where
  now : ℚ
  elapsed : ℚ
  windowSize : WindowSize
  surface : Except SurfaceError SurfaceTexture
  screenshotting : Bool
  cameraPos : ℚ × ℚ × ℚ
deriving DecidableEq

/-- The mutable state of `struct Renderer` that `render` touches
(`src/renderer.rs:65-92`); GPU buffer/texture handles are elided. -/
structure RendererState where
  tileTints : List (TileCoord × Vec4)
  extraInstances : List (InstanceData × Id)
  lastUpdate : Option ℚ
  lastGameData : Option GameData
  renderInfoUpdating : Bool
  renderInfoCache : Option Snapshot
  transactionRecordsUpdating : Bool
  transactionRecordsCache : TransactionRecords
deriving DecidableEq

/-- Embeds `Renderer::new` (`src/renderer.rs:101-122`): empty caches, cleared flags,
no previous update instant and no previous batch. -/
def initialState : RendererState :=
  ⟨[], [], none, none, false, none, false, []⟩

/-- GPU work issued in one frame, at render-pass granularity, in submission
order (`inner_render`); the extra-objects pass and the main tile (game) pass
carry the batch they draw from. -/
inductive GpuCmd where
  | extraObjectsPass (data : GameData)
  | gamePass (data : GameData)
  | postProcessingPass
  | antialiasingPass
  | guiPass
  | combinePass
  | presentPass
  | screenshotPass
  | present
deriving DecidableEq

/-- Everything one `Renderer::render` call produces: the new renderer state,
the returned `Result`, the GPU passes issued, and whether it spawned an
asynchronous render-info / transaction-records fetch. -/
structure RenderOutput where
  state : RendererState
  result : Except SurfaceError Unit
  cmds : List GpuCmd
  spawnedRenderInfo : Bool
  spawnedTransactions : Bool

/-- Embeds `resource_man.registry.tiles.get(id).unwrap()`
(`src/renderer.rs:311,389`), totalized with an inert default for ids the
well-formedness hypotheses rule out. -/
def ResourceManager.tileOrDefault (rm : ResourceManager) (id : Id) : TileDef :=
  (rm.tiles.lookup id).getD ⟨rm.modelMissing, none, none⟩

/-- Modelled from the spec: `tile_model_or_missing` / `item_model_or_missing`
(`automancy_resources`, not among the sources) — "a designated missing-model
fallback used whenever a tile or item identifier has no mapped model". -/
def ResourceManager.modelOrMissing (rm : ResourceManager) (m : Id) : Id :=
  if (rm.allModels.lookup m).isSome then m else rm.modelMissing

/-- Modelled from the spec: `colors::RED.to_linear()` (`automancy_defs`);
the claims never inspect the value. -/
def redLinear : Vec4 := (1, 0, 0, 1)

/-- Modelled from the spec: `colors::ORANGE` (`automancy_defs`), the default
direction color; the claims never inspect the value. -/
def orangeColor : Vec4 := (1, 13/20, 0, 1)

/-- The transaction-record decorative instances (`src/renderer.rs:245-277`):
for every recorded transfer whose endpoints are both inside the culling
range, one item instance per in-flight record. The interpolated model matrix
is elided with the matrix field. -/
def transactionExtras (geom : Geometry) (rm : ResourceManager)
    (cameraPos : ℚ × ℚ × ℚ) (records : TransactionRecords) :
    List (InstanceData × Id) :=
  records.foldl (fun acc r =>
    if geom.inCullingRange r.1.1 && geom.inCullingRange r.1.2 then
      acc ++ r.2.map (fun rec =>
        (InstanceData.mkDefault.with_light_pos cameraPos, rm.modelOrMissing rec.2))
    else acc) []

/-- The link-line and held-item decorative instances derived from the
tile-data map (`src/renderer.rs:280-308`). -/
def dataExtras (rm : ResourceManager) (cameraPos : ℚ × ℚ × ℚ)
    (allData : List (TileCoord × DataMap)) : List (InstanceData × Id) :=
  allData.foldl (fun acc entry =>
    let acc := match entry.2.link with
      | some _ =>
        acc ++ [((InstanceData.mkDefault.with_color_offset redLinear).with_light_pos
          cameraPos, rm.cube1x1)]
      | none => acc
    match entry.2.item with
    | some id =>
      acc ++ [(InstanceData.mkDefault.with_light_pos cameraPos,
        (rm.items.lookup id).getD rm.modelMissing)]
    | none => acc) []

/-- The directional-arrow decorative instances (`src/renderer.rs:310-345`):
one arrow per tile whose resolved facing direction is defined, colored by
the tile's `direction_color` (default orange). -/
def arrowExtras (geom : Geometry) (rm : ResourceManager)
    (cameraPos : ℚ × ℚ × ℚ) (snap : Snapshot) : List (InstanceData × Id) :=
  snap.renderInfo.foldl (fun acc entry =>
    let tile := rm.tileOrDefault entry.2.1
    match ((snap.allData.lookup entry.1).bind DataMap.direction).bind
        geom.tileDirectionToAngle with
    | some _ =>
      acc ++ [((InstanceData.mkDefault.with_color_offset
          (tile.directionColor.getD orangeColor)).with_light_pos cameraPos,
        rm.cube1x1)]
    | none => acc) []

/-- The culling-range fill-in (`src/renderer.rs:366-386`): every culling-range
coordinate without a render unit, whose world position lies within the screen
bound of the camera center, receives a `registry.none` unit. -/
def fillRenderInfo (geom : Geometry) (rm : ResourceManager)
    (cameraPos : ℚ × ℚ × ℚ) (info : List (TileCoord × (Id × RenderUnit))) :
    List (TileCoord × (Id × RenderUnit)) :=
  geom.cullingRangeTiles.foldl (fun acc coord =>
    if (acc.lookup coord).isSome then acc
    else
      let pos := geom.hexToWorldPos coord
      let d := (pos.1 - cameraPos.1, pos.2 - cameraPos.2.1)
      if d.1 ≤ geom.screenBound.1 ∧ d.2 ≤ geom.screenBound.2 then
        acc ++ [(coord, (rm.noneTile, ⟨InstanceData.mkDefault, none⟩))]
      else acc) info

/-- The per-unit direction / inactive-model pass (`src/renderer.rs:388-411`):
a unit with a resolved facing direction gets its (elided) matrix rotated;
otherwise a configured `inactive_model` becomes the unit's model override. -/
def applyOverrides (geom : Geometry) (rm : ResourceManager)
    (allData : List (TileCoord × DataMap))
    (info : List (TileCoord × (Id × RenderUnit))) :
    List (TileCoord × (Id × RenderUnit)) :=
  info.map (fun entry =>
    let tile := rm.tileOrDefault entry.2.1
    match ((allData.lookup entry.1).bind DataMap.direction).bind
        geom.tileDirectionToAngle with
    | some _ => entry
    | none =>
      match tile.inactiveModel with
      | some inactive =>
        (entry.1, (entry.2.1,
          { entry.2.2 with modelOverride := some (rm.modelOrMissing inactive) }))
      | none => entry)

/-- The tint/light pass (`src/renderer.rs:413-424`): a coordinate present in
the frame's tint overlay replaces that unit's color offset; every unit gets
the camera light position. -/
def applyTints (tints : List (TileCoord × Vec4)) (cameraPos : ℚ × ℚ × ℚ)
    (info : List (TileCoord × (Id × RenderUnit))) :
    List (TileCoord × (Id × RenderUnit)) :=
  info.map (fun entry =>
    let inst := match tints.lookup entry.1 with
      | some color => entry.2.2.inst.with_color_offset color
      | none => entry.2.2.inst
    (entry.1, (entry.2.1, { entry.2.2 with inst := inst.with_light_pos cameraPos })))

/-- The instance collection loop (`src/renderer.rs:426-445`): resolve each
unit's model (tile model, `missing` fallback, then `model_override`),
register its animation, and emit `(instance, model, world position)`. -/
def collectInstances (geom : Geometry) (rm : ResourceManager) (elapsed : ℚ)
    (info : List (TileCoord × (Id × RenderUnit))) (animationMap : AnimationMap) :
    List (InstanceData × Id × (ℚ × ℚ)) × AnimationMap :=
  info.foldl (fun acc entry =>
    let model := ((rm.tiles.lookup entry.2.1).map TileDef.model).getD rm.modelMissing
    let model := entry.2.2.modelOverride.getD model
    (acc.1 ++ [(entry.2.2.inst, model, geom.hexToWorldPos entry.1)],
      (try_add_animation rm elapsed model acc.2).2)) ([], animationMap)

/-- Embeds `camera_pos.distance_squared(*a)` (`src/renderer.rs:448-451`). -/
def distanceSq (a b : ℚ × ℚ) : ℚ := (a.1 - b.1) ^ 2 + (a.2 - b.2) ^ 2

/-- Stable insertion by camera distance (Rust's stable `sort_by` with
`total_cmp` on the squared distances). -/
def insertByDist (center : ℚ × ℚ) (x : InstanceData × Id × (ℚ × ℚ)) :
    List (InstanceData × Id × (ℚ × ℚ)) → List (InstanceData × Id × (ℚ × ℚ))
  | [] => [x]
  | y :: ys =>
    if distanceSq center x.2.2 ≤ distanceSq center y.2.2 then x :: y :: ys
    else y :: insertByDist center x ys

def sortByDist (center : ℚ × ℚ) :
    List (InstanceData × Id × (ℚ × ℚ)) → List (InstanceData × Id × (ℚ × ℚ))
  | [] => []
  | x :: xs => insertByDist center x (sortByDist center xs)

/-- The rate-limited batch recompute (`src/renderer.rs:355-461`): fill in the
culling range, apply direction/inactive overrides, apply the frame's tints
and light, collect instances with their animations, sort back-to-front
(ascending distance, then reversed). -/
def computeGameInstances (geom : Geometry) (rm : ResourceManager)
    (elapsed : ℚ) (cameraPos : ℚ × ℚ × ℚ) (tileTints : List (TileCoord × Vec4))
    (snap : Snapshot) : List (InstanceData × Id) × AnimationMap :=
  let info := fillRenderInfo geom rm cameraPos snap.renderInfo
  let info := applyOverrides geom rm snap.allData info
  let info := applyTints tileTints cameraPos info
  let (collected, amap) := collectInstances geom rm elapsed info []
  (((sortByDist (cameraPos.1, cameraPos.2.1) collected).reverse).map
    (fun v => (v.1, v.2.1)), amap)

/-- Embeds `Instant::duration_since` (saturating at zero), in seconds. -/
def duration_since (now earlier : ℚ) : ℚ := max (now - earlier) 0

/-- Embeds `UPS` (`src/renderer.rs:62`). -/
def UPS : Nat := 60

/-- Embeds `UPDATE_INTERVAL = Duration::from_nanos(1_000_000_000 / UPS)`
(`src/renderer.rs:63`), in seconds — note the truncating integer division. -/
def UPDATE_INTERVAL : ℚ := ((1000000000 / UPS : ℕ) : ℚ) / 1000000000

/-- Embeds `Renderer::inner_render` (`src/renderer.rs:485-1022`), at render-pass
granularity: acquire the surface (propagating its error), drop the frame on a
window/surface size mismatch, issue the extra-objects pass, the main tile
pass when a fresh or carried-over batch exists (`game_data.take().or(
self.last_game_data.take())`, storing the used batch back), then the
post-processing, antialiasing, GUI, combine and present passes, the optional
screenshot path, and present. -/
def inner_render (st : RendererState) (size : WindowSize)
    (surface : Except SurfaceError SurfaceTexture) (screenshotting : Bool)
    (gameInstances : Option (List (InstanceData × Id)))
    (extraInstances : List (InstanceData × Id)) :
    RendererState × Except SurfaceError Unit × List GpuCmd :=
  let gameData := gameInstances.map indirect_instance
  let extraGameData := indirect_instance extraInstances
  match surface with
  | .error e => (st, .error e, [])
  | .ok tex =>
    if tex.width ≠ size.width ∨ tex.height ≠ size.height then
      (st, .ok (), [])
    else
      let cmds := [GpuCmd.extraObjectsPass extraGameData]
      let (st, cmds) :=
        match gameData with
        | some gd => ({ st with lastGameData := some gd }, cmds ++ [GpuCmd.gamePass gd])
        | none =>
          match st.lastGameData with
          | some gd => ({ st with lastGameData := some gd }, cmds ++ [GpuCmd.gamePass gd])
          | none => ({ st with lastGameData := none }, cmds)
      (st, .ok (),
        cmds ++ [GpuCmd.postProcessingPass, GpuCmd.antialiasingPass, GpuCmd.guiPass,
          GpuCmd.combinePass, GpuCmd.presentPass] ++
          (if screenshotting then [GpuCmd.screenshotPass] else []) ++ [GpuCmd.present])

/-- Embeds `Renderer::render` (`src/renderer.rs:163-483`): drain the tint overlay and
queued extra instances, skip zero-sized frames, spawn the render-info fetch
when idle, skip frames with no snapshot yet, spawn the transaction-records
fetch when idle, derive the decorative extra instances, recompute the tile
batch when the update interval has elapsed, and run `inner_render`. -/
def renderStep (geom : Geometry) (rm : ResourceManager) (st : RendererState)
    (inp : FrameInput) : RenderOutput :=
  let tileTints := st.tileTints
  let extraInstances0 := st.extraInstances
  let st := { st with tileTints := [], extraInstances := [] }
  if inp.windowSize.width = 0 ∨ inp.windowSize.height = 0 then
    ⟨st, .ok (), [], false, false⟩
  else
    let spawnRI := !st.renderInfoUpdating
    let st := if spawnRI then { st with renderInfoUpdating := true } else st
    match st.renderInfoCache with
    | none => ⟨st, .ok (), [], spawnRI, false⟩
    | some snap =>
      let spawnTx := !st.transactionRecordsUpdating
      let st := if spawnTx then { st with transactionRecordsUpdating := true } else st
      let extraInstances := extraInstances0
        ++ transactionExtras geom rm inp.cameraPos st.transactionRecordsCache
        ++ dataExtras rm inp.cameraPos snap.allData
        ++ arrowExtras geom rm inp.cameraPos snap
      let (st, gameInstances) :=
        match st.lastUpdate with
        | none => ({ st with lastUpdate := some inp.now }, none)
        | some lu =>
          if duration_since inp.now lu < UPDATE_INTERVAL then (st, none)
          else
            ({ st with lastUpdate := some inp.now },
              some (computeGameInstances geom rm inp.elapsed inp.cameraPos
                tileTints snap).1)
      let r := inner_render st inp.windowSize inp.surface inp.screenshotting
        gameInstances extraInstances
      ⟨r.1, r.2.1, r.2.2, spawnRI, spawnTx⟩

/-- The renderer state after the start of a non-skipped frame: tints and
queued extra instances drained (`mem::take`, `src/renderer.rs:173-174`) and
both `updating` flags set (they are set when previously clear and left alone
when already set, so they are `true` either way,
`src/renderer.rs:188-193,225-230`). Used to state reduction lemmas about
`renderStep`. -/
def drainedState (st : RendererState) : RendererState :=
  { st with
    tileTints := []
    extraInstances := []
    renderInfoUpdating := true
    transactionRecordsUpdating := true }

/-- The extra-instance list a frame hands to `inner_render`
(`src/renderer.rs:174,245-345`). -/
def frameExtras (geom : Geometry) (rm : ResourceManager) (st : RendererState)
    (inp : FrameInput) (snap : Snapshot) : List (InstanceData × Id) :=
  st.extraInstances
    ++ transactionExtras geom rm inp.cameraPos st.transactionRecordsCache
    ++ dataExtras rm inp.cameraPos snap.allData
    ++ arrowExtras geom rm inp.cameraPos snap

/-- The rate-limit gate (`src/renderer.rs:347-462`): the updated state and the
optionally recomputed instance list. -/
def updateGate (geom : Geometry) (rm : ResourceManager) (st : RendererState)
    (inp : FrameInput) (snap : Snapshot) :
    RendererState × Option (List (InstanceData × Id)) :=
  match st.lastUpdate with
  | none => ({ drainedState st with lastUpdate := some inp.now }, none)
  | some lu =>
    if duration_since inp.now lu < UPDATE_INTERVAL then (drainedState st, none)
    else
      ({ drainedState st with lastUpdate := some inp.now },
        some (computeGameInstances geom rm inp.elapsed inp.cameraPos
          st.tileTints snap).1)

/-! ### The asynchronous fetch protocol (snapshot caches) -/

/-- An event in the renderer's lifetime: a `Renderer::render` call, or the
completion / panic of one of the fetch tasks it spawned onto the tokio
runtime. `renderInfoDone` is the task body finishing normally — it writes the
cache and then clears the flag (`src/renderer.rs:213-215`); `renderInfoPanic`
is the task panicking at one of the `.unwrap()` calls on the actor reply
(`src/renderer.rs:196-211`) — the task dies *before* the cache write and
before `updating.store(false, ..)`, so it leaves both untouched. The
transaction-record events mirror `src/renderer.rs:232-242`. -/
inductive RenderEvent where
  | frame (inp : FrameInput)
  | renderInfoDone (snap : Snapshot)
  | renderInfoPanic
  | transactionsDone (tx : TransactionRecords)
  | transactionsPanic

/-- The renderer state plus one ghost counter per cache: the number of fetch
tasks currently outstanding on the runtime. -/
structure TraceState where
  st : RendererState
  inFlightRI : Nat
  inFlightTx : Nat

/-- One step of the renderer/fetch-task system. Completion events are guarded
on a task actually being outstanding (a completion cannot occur without a
prior spawn). -/
def traceStep (geom : Geometry) (rm : ResourceManager) (ts : TraceState) :
    RenderEvent → TraceState
  | .frame inp =>
    let out := renderStep geom rm ts.st inp
    ⟨out.state,
      ts.inFlightRI + (if out.spawnedRenderInfo then 1 else 0),
      ts.inFlightTx + (if out.spawnedTransactions then 1 else 0)⟩
  | .renderInfoDone snap =>
    if ts.inFlightRI = 0 then ts
    else
      ⟨{ ts.st with renderInfoCache := some snap, renderInfoUpdating := false },
        ts.inFlightRI - 1, ts.inFlightTx⟩
  | .renderInfoPanic =>
    if ts.inFlightRI = 0 then ts
    else ⟨ts.st, ts.inFlightRI - 1, ts.inFlightTx⟩
  | .transactionsDone tx =>
    if ts.inFlightTx = 0 then ts
    else
      ⟨{ ts.st with
          transactionRecordsCache := tx
          transactionRecordsUpdating := false },
        ts.inFlightRI, ts.inFlightTx - 1⟩
  | .transactionsPanic =>
    if ts.inFlightTx = 0 then ts
    else ⟨ts.st, ts.inFlightRI, ts.inFlightTx - 1⟩

/-- Run a sequence of events from the freshly constructed renderer
(`Renderer::new`). -/
def execTrace (geom : Geometry) (rm : ResourceManager)
    (evs : List RenderEvent) : TraceState :=
  evs.foldl (traceStep geom rm) ⟨initialState, 0, 0⟩

/-- The single-flight invariant: at most one outstanding fetch per cache, and
a cleared `updating` flag means no fetch is outstanding for that cache. -/
def cacheInv (ts : TraceState) : Prop :=
  ts.inFlightRI ≤ 1 ∧ ts.inFlightTx ≤ 1 ∧
  (ts.st.renderInfoUpdating = false → ts.inFlightRI = 0) ∧
  (ts.st.transactionRecordsUpdating = false → ts.inFlightTx = 0)

/-! ### Concrete fixtures used by the witnesses -/

/-- A trivial geometry context (empty culling range, no directions). -/
def geom0 : Geometry := ⟨fun _ => (0, 0), fun _ => none, [], fun _ => false, (0, 0)⟩

/-- An empty resource manager. -/
def rm0 : ResourceManager := ⟨[], [], [], 0, 0, 0⟩

/-- A frame with a 1×1 window and a matching acquired surface. -/
def inpOk : FrameInput := ⟨0, 0, ⟨1, 1⟩, .ok ⟨1, 1⟩, false, (0, 0, 0)⟩

/-- A frame whose window width is zero. -/
def inpZeroW : FrameInput := ⟨0, 0, ⟨0, 1⟩, .ok ⟨1, 1⟩, false, (0, 0, 0)⟩

/-- A frame whose surface acquisition fails with `SurfaceError::Lost`. -/
def inpErr : FrameInput := ⟨0, 0, ⟨1, 1⟩, .error .lost, false, (0, 0, 0)⟩

/-- A frame whose acquired surface size disagrees with the window size. -/
def inpMismatch : FrameInput := ⟨0, 0, ⟨1, 1⟩, .ok ⟨2, 2⟩, false, (0, 0, 0)⟩

/-- A frame one second later (so the update interval has elapsed). -/
def inpLater : FrameInput := ⟨1, 1, ⟨1, 1⟩, .ok ⟨1, 1⟩, false, (0, 0, 0)⟩

/-- A state holding an empty snapshot, a previous update instant and a
previous batch. -/
def stCarry : RendererState :=
  ⟨[], [], some 0, some (indirect_instance []), false, some ⟨[], []⟩, false, []⟩

/-- A snapshot with one tile at the origin (tile type `5`). -/
def snap9 : Snapshot := ⟨[((0, 0), (5, ⟨InstanceData.mkDefault, none⟩))], []⟩

/-- A state with a pending red tint for the origin tile, a snapshot containing
that tile, and a stale `last_update`. -/
def st9 : RendererState :=
  ⟨[((0, 0), (1, 0, 0, 1))], [], some 0, none, false, some snap9, false, []⟩

/-! ### Arithmetic lemmas for `fmod` -/

theorem ratFloor_eq_intFloor (q : ℚ) : (q.floor : ℤ) = ⌊q⌋ := by
  rw [Rat.floor_def', Rat.floor_def]

theorem fmod_eq (x d : ℚ) : fmod x d = x - d * (⌊x / d⌋ : ℤ) := by
  unfold fmod
  rw [ratFloor_eq_intFloor]

theorem fmod_nonneg (x : ℚ) {d : ℚ} (hd : 0 < d) : 0 ≤ fmod x d := by
  have h := Int.floor_le (x / d)
  have : (⌊x / d⌋ : ℚ) * d ≤ (x / d) * d := by
    exact mul_le_mul_of_nonneg_right h (le_of_lt hd)
  rw [div_mul_cancel₀ x (ne_of_gt hd)] at this
  rw [fmod_eq]
  nlinarith

theorem fmod_lt (x : ℚ) {d : ℚ} (hd : 0 < d) : fmod x d < d := by
  have h := Int.lt_floor_add_one (x / d)
  have : (x / d) * d < ((⌊x / d⌋ : ℚ) + 1) * d := by
    exact mul_lt_mul_of_pos_right h hd
  rw [div_mul_cancel₀ x (ne_of_gt hd)] at this
  rw [fmod_eq]
  nlinarith

/-- Adding one full period to the dividend leaves the remainder unchanged. -/
theorem fmod_add_self (x : ℚ) {d : ℚ} (hd : d ≠ 0) : fmod (x + d) d = fmod x d := by
  rw [fmod_eq, fmod_eq]
  have h1 : (x + d) / d = x / d + 1 := by field_simp
  rw [h1, Int.floor_add_one]
  push_cast
  ring

/-! ### List helper lemmas (takeWhile / association-list lookup) -/

theorem takeWhile_getD_pred {α : Type} (p : α → Bool) (d : α) :
    ∀ (l : List α) (j : Nat), j < (l.takeWhile p).length → p (l.getD j d) = true := by
  intro l
  induction l with
  | nil => intro j hj; simp [List.takeWhile] at hj
  | cons x xs ih =>
    intro j hj
    cases hp : p x with
    | false => simp [List.takeWhile, hp] at hj
    | true =>
      simp [List.takeWhile, hp] at hj
      cases j with
      | zero => simpa using hp
      | succ n =>
        simp only [List.getD_cons_succ]
        exact ih n (by omega)

theorem takeWhile_getD_false {α : Type} (p : α → Bool) (d : α) :
    ∀ (l : List α), (l.takeWhile p).length < l.length →
      p (l.getD (l.takeWhile p).length d) = false := by
  intro l
  induction l with
  | nil => intro h; simp at h
  | cons x xs ih =>
    intro h
    cases hp : p x with
    | false => simp [List.takeWhile, hp]
    | true =>
      simp only [List.takeWhile, hp, List.length_cons] at h ⊢
      simpa using ih (by omega)

theorem takeWhile_length_lt_of_mem_false {α : Type} {p : α → Bool} {x : α} :
    ∀ {l : List α}, x ∈ l → p x = false → (l.takeWhile p).length < l.length := by
  intro l
  induction l with
  | nil => intro h; simp at h
  | cons y ys ih =>
    intro hx hpx
    cases hp : p y with
    | false => simp [List.takeWhile, hp]
    | true =>
      have hxy : x ∈ ys := by
        rcases List.mem_cons.mp hx with rfl | h
        · rw [hp] at hpx; exact absurd hpx (by simp)
        · exact h
      simp only [List.takeWhile, hp, List.length_cons]
      have := ih hxy hpx
      omega

theorem animLookup_append {β : Type} (l₁ l₂ : List (Id × β)) (k : Id) :
    animLookup (l₁ ++ l₂) k =
      match animLookup l₂ k with
      | some w => some w
      | none => animLookup l₁ k := by
  induction l₁ with
  | nil => simp [animLookup]; cases animLookup l₂ k <;> rfl
  | cons x xs ih =>
    cases x with
    | mk a v =>
      simp only [List.cons_append, animLookup, List.append_eq, ih]
      cases animLookup l₂ k <;> cases animLookup xs k <;> rfl

theorem animLookup_eq_none_of_not_mem {β : Type} {k : Id} :
    ∀ {l : List (Id × β)}, k ∉ l.map Prod.fst → animLookup l k = none := by
  intro l
  induction l with
  | nil => intro; rfl
  | cons x xs ih =>
    intro hk
    simp only [List.map_cons, List.mem_cons] at hk
    push_neg at hk
    simp only [animLookup, ih hk.2]
    simp only [ite_eq_right_iff, reduceCtorEq, imp_false]
    exact fun h => hk.1 h.symm

theorem animLookup_singleton {β : Type} (k : Id) (v : β) :
    animLookup [(k, v)] k = some v := by
  simp [animLookup]

/-! ### Claims C5, C7, C10 -/

/-- C5. For every model whose animation tracks all have total duration `d`
(their last keyframe time) with `d > 0`, the animation sample at elapsed time
`t` and at `t + d` are identical per-part transforms, because each track is
evaluated at the elapsed time modulo `d` (`src/renderer.rs:139`). -/
theorem animation_sample_periodic (anims : List AnimationTrack) (d t : ℚ)
    (hd : 0 < d) (ht : 0 ≤ t)
    (hall : ∀ a ∈ anims, trackLast a = d) :
    sampleModel (t + d) anims = sampleModel t anims := by
  unfold sampleModel
  have h : anims.map (sampleTrack (t + d)) = anims.map (sampleTrack t) := by
    apply List.map_congr_left
    intro a ha
    unfold sampleTrack trackIndex trackWrapped
    rw [hall a ha, fmod_add_self t (ne_of_gt hd)]
  rw [h]

theorem animation_sample_periodic_witness :
    (0 : ℚ) < 1 ∧ (0 : ℚ) ≤ 1/2 ∧
      sampleModel ((1 : ℚ)/2 + 1) [⟨0, [1], [1]⟩] = sampleModel (1/2) [⟨0, [1], [1]⟩] :=
  ⟨by norm_num, by norm_num,
    animation_sample_periodic [⟨0, [1], [1]⟩] 1 (1/2) (by norm_num) (by norm_num)
      (by intro a ha; simp only [List.mem_singleton] at ha; subst ha; rfl)⟩

/-- C7. If a model is registered with no animation tracks, the first
`try_add_animation` call records an empty ("no animation") entry for it in the
per-frame animation map, and any further call for that model—whatever the
resource manager or elapsed time—returns `true` and leaves the map unchanged,
i.e. performs no further animation lookup until the map is reset
(`src/renderer.rs:131-159`). -/
theorem no_animation_entry_recorded (rm : ResourceManager) (elapsed : ℚ)
    (model : Id) (m : AnimationMap)
    (hnew : animLookup m model = none)
    (hnoanim : rm.allModels.lookup model = some []) :
    animLookup (try_add_animation rm elapsed model m).2 model = some [] ∧
    (try_add_animation rm elapsed model m).1 = true ∧
    ∀ (rm' : ResourceManager) (e' : ℚ),
      try_add_animation rm' e' model (try_add_animation rm elapsed model m).2 =
        (true, (try_add_animation rm elapsed model m).2) := by
  have hstep : try_add_animation rm elapsed model m =
      (true, m ++ [(model, [])]) := by
    unfold try_add_animation
    rw [hnew, hnoanim]
    rfl
  have hlook : animLookup (m ++ [(model, [])]) model = some [] := by
    rw [animLookup_append, animLookup_singleton]
  refine ⟨by rw [hstep]; exact hlook, by rw [hstep], ?_⟩
  intro rm' e'
  rw [hstep]
  unfold try_add_animation
  rw [hlook]
  rfl

theorem no_animation_entry_recorded_witness :
    animLookup ([] : AnimationMap) 7 = none ∧
    (ResourceManager.mk [(7, [])] [] [] 0 0 0).allModels.lookup 7 = some [] ∧
    (animLookup (try_add_animation (ResourceManager.mk [(7, [])] [] [] 0 0 0) 0 7 []).2 7
        = some [] ∧
      (try_add_animation (ResourceManager.mk [(7, [])] [] [] 0 0 0) 0 7 []).1 = true ∧
      ∀ (rm' : ResourceManager) (e' : ℚ),
        try_add_animation rm' e' 7
            (try_add_animation (ResourceManager.mk [(7, [])] [] [] 0 0 0) 0 7 []).2 =
          (true, (try_add_animation (ResourceManager.mk [(7, [])] [] [] 0 0 0) 0 7 []).2)) :=
  ⟨rfl, rfl, no_animation_entry_recorded (ResourceManager.mk [(7, [])] [] [] 0 0 0) 0 7 [] rfl rfl⟩

/-- C10. For every animation track whose keyframe-time list is non-empty
and ascending with a positive last time, and whose output list is at least as
long as its input list, the keyframe index computed by `try_add_animation`
(the partition point of the input times below `wrapped = elapsed mod last`,
`src/renderer.rs:138-142`) is strictly below the output list's length for
every elapsed time, so the indexing into the outputs cannot go out of
bounds. -/
theorem animation_index_in_bounds (a : AnimationTrack) (elapsed d : ℚ)
    (hlast : a.inputs.getLast? = some d) (hd : 0 < d)
    (hsort : a.inputs.Sorted (· ≤ ·))
    (hlen : a.inputs.length ≤ a.outputs.length) :
    trackIndex elapsed a < a.outputs.length := by
  have hmem : d ∈ a.inputs := by
    rcases List.mem_getLast?_eq_getLast (show d ∈ a.inputs.getLast? by rw [hlast]; rfl)
      with ⟨hne, hEq⟩
    rw [hEq]
    exact List.getLast_mem hne
  have hlast' : trackLast a = d := by
    unfold trackLast
    rw [List.getLastD_eq_getLast?, hlast]
    rfl
  have hwr : trackWrapped elapsed a < d := by
    unfold trackWrapped
    rw [hlast']
    exact fmod_lt _ hd
  have hpd : (fun v => decide (v < trackWrapped elapsed a)) d = false := by
    simp only [decide_eq_false_iff_not, not_lt]
    exact le_of_lt hwr
  have hlt : trackIndex elapsed a < a.inputs.length :=
    takeWhile_length_lt_of_mem_false hmem hpd
  omega

theorem animation_index_in_bounds_witness :
    (AnimationTrack.mk 0 [0, 1] [1, 1]).inputs.getLast? = some 1 ∧
    (0 : ℚ) < 1 ∧
    (AnimationTrack.mk 0 [0, 1] [1, 1]).inputs.Sorted (· ≤ ·) ∧
    (AnimationTrack.mk 0 [0, 1] [1, 1]).inputs.length
      ≤ (AnimationTrack.mk 0 [0, 1] [1, 1]).outputs.length ∧
    trackIndex (1/2) (AnimationTrack.mk 0 [0, 1] [1, 1])
      < (AnimationTrack.mk 0 [0, 1] [1, 1]).outputs.length :=
  ⟨rfl, by norm_num, by simp, by simp,
    animation_index_in_bounds (AnimationTrack.mk 0 [0, 1] [1, 1]) (1/2) 1 rfl
      (by norm_num) (by simp) (by simp)⟩

/-! ### Structure of `binary_group_by_key` (for claim C6) -/

theorem bgbk_cons_of_nil {β : Type} (x : Id × β) {xs : List (Id × β)}
    (h : binary_group_by_key xs = []) :
    binary_group_by_key (x :: xs) = [[x]] := by
  unfold binary_group_by_key
  rw [h]

theorem bgbk_cons_of_group {β : Type} (x y : Id × β) (ys : List (Id × β))
    (gs : List (List (Id × β))) {xs : List (Id × β)}
    (h : binary_group_by_key xs = (y :: ys) :: gs) :
    binary_group_by_key (x :: xs) =
      if x.1 = y.1 then (x :: y :: ys) :: gs else [x] :: (y :: ys) :: gs := by
  unfold binary_group_by_key
  rw [h]

theorem bgbk_join {β : Type} :
    ∀ l : List (Id × β), (binary_group_by_key l).flatten = l := by
  intro l
  induction l with
  | nil => rfl
  | cons x xs ih =>
    unfold binary_group_by_key
    cases h : binary_group_by_key xs with
    | nil =>
      rw [h] at ih
      simp at ih
      simp [ih]
    | cons g gs =>
      cases g with
      | nil =>
        rw [h] at ih
        simpa using ih
      | cons y ys =>
        rw [h] at ih
        by_cases hk : x.1 = y.1
        · simpa [hk] using ih
        · simpa [hk] using ih

theorem bgbk_ne_nil_mem {β : Type} :
    ∀ l : List (Id × β), [] ∉ binary_group_by_key l := by
  intro l
  induction l with
  | nil => simp [binary_group_by_key]
  | cons x xs ih =>
    unfold binary_group_by_key
    cases h : binary_group_by_key xs with
    | nil => simp
    | cons g gs =>
      cases g with
      | nil =>
        rw [h] at ih
        exact absurd (List.mem_cons_self _ _) ih
      | cons y ys =>
        rw [h] at ih
        simp only [List.mem_cons, not_or] at ih
        by_cases hk : x.1 = y.1
        · simp only [if_pos hk, List.mem_cons, not_or]
          exact ⟨by simp, ih.2⟩
        · simp only [if_neg hk, List.mem_cons, not_or]
          exact ⟨by simp, by simp, ih.2⟩

theorem bgbk_head {β : Type} (x : Id × β) (xs : List (Id × β)) :
    ∃ t gs, binary_group_by_key (x :: xs) = (x :: t) :: gs := by
  unfold binary_group_by_key
  cases h : binary_group_by_key xs with
  | nil => exact ⟨[], [], rfl⟩
  | cons g gs =>
    cases g with
    | nil => exact ⟨[], [] :: gs, rfl⟩
    | cons y ys =>
      by_cases hk : x.1 = y.1
      · exact ⟨y :: ys, gs, by simp [hk]⟩
      · exact ⟨[], (y :: ys) :: gs, by simp [hk]⟩

theorem bgbk_eq_nil {β : Type} {l : List (Id × β)}
    (h : binary_group_by_key l = []) : l = [] := by
  have := bgbk_join l
  rw [h] at this
  simpa using this.symm

theorem bgbk_append {β : Type} (z : Id × β) (zs : List (Id × β)) :
    ∀ (l₁ : List (Id × β)), (∀ a, l₁.getLast? = some a → a.1 ≠ z.1) →
      binary_group_by_key (l₁ ++ z :: zs) =
        binary_group_by_key l₁ ++ binary_group_by_key (z :: zs) := by
  intro l₁
  induction l₁ with
  | nil => intro; simp [binary_group_by_key]
  | cons x xs ih =>
    intro hb
    have hb' : ∀ a, xs.getLast? = some a → a.1 ≠ z.1 := by
      intro a ha
      cases xs with
      | nil => simp at ha
      | cons w ws =>
        exact hb a (by rwa [List.getLast?_cons_cons])
    show binary_group_by_key (x :: (xs ++ z :: zs)) = _
    cases hxs : binary_group_by_key xs with
    | nil =>
      have hnil : xs = [] := bgbk_eq_nil hxs
      subst hnil
      obtain ⟨t, gs, hz⟩ := bgbk_head z zs
      have hxz : x.1 ≠ z.1 := hb x rfl
      rw [List.nil_append, bgbk_cons_of_group x z t gs hz, if_neg hxz,
        bgbk_cons_of_nil x (show binary_group_by_key ([] : List (Id × β)) = [] from rfl), hz]
      rfl
    | cons g gs =>
      cases g with
      | nil => exact absurd (hxs ▸ List.mem_cons_self _ _) (bgbk_ne_nil_mem xs)
      | cons y ys =>
        have hsplit : binary_group_by_key (xs ++ z :: zs) =
            (y :: ys) :: (gs ++ binary_group_by_key (z :: zs)) := by
          rw [ih hb', hxs, List.cons_append]
        rw [bgbk_cons_of_group x y ys (gs ++ binary_group_by_key (z :: zs)) hsplit,
          bgbk_cons_of_group x y ys gs hxs]
        by_cases hk : x.1 = y.1
        · simp [hk]
        · simp [hk]

theorem bgbk_const_run {β : Type} (p : Id) :
    ∀ (r : List (Id × β)), r ≠ [] → (∀ e ∈ r, e.1 = p) →
      binary_group_by_key r = [r] := by
  intro r
  induction r with
  | nil => intro h; exact absurd rfl h
  | cons x xs ih =>
    intro _ hall
    cases xs with
    | nil => rfl
    | cons y ys =>
      have hxs : binary_group_by_key (y :: ys) = [y :: ys] :=
        ih (by simp) (fun e he => hall e (List.mem_cons_of_mem _ he))
      unfold binary_group_by_key
      rw [hxs]
      have hxy : x.1 = y.1 := by
        rw [hall x (by simp), hall y (by simp)]
      simp [hxy]

theorem bgbk_group_elem_mem {β : Type} {l : List (Id × β)} {g : List (Id × β)}
    (hg : g ∈ binary_group_by_key l) {e : Id × β} (he : e ∈ g) : e ∈ l := by
  rw [← bgbk_join l]
  exact List.mem_flatten.mpr ⟨g, hg, he⟩

theorem mem_of_getLast?_eq {α : Type} {l : List α} {a : α}
    (h : l.getLast? = some a) : a ∈ l := by
  rcases List.mem_getLast?_eq_getLast (show a ∈ l.getLast? by rw [h]; rfl)
    with ⟨hne, hEq⟩
  rw [hEq]
  exact List.getLast_mem hne

theorem bgbk_append_of_ne {β : Type} (l₁ : List (Id × β)) (z : Id × β)
    (zs : List (Id × β)) (h : ∀ a ∈ l₁, a.1 ≠ z.1) :
    binary_group_by_key (l₁ ++ z :: zs) =
      binary_group_by_key l₁ ++ binary_group_by_key (z :: zs) :=
  bgbk_append z zs l₁ (fun a ha => h a (mem_of_getLast?_eq ha))

theorem headD_mem {α : Type} {g : List α} (hg : g ≠ []) (d : α) : g.headD d ∈ g := by
  cases g with
  | nil => exact absurd rfl hg
  | cons x xs => simp

/-- How the per-model sample behaves on a contiguous run of tracks sharing a
target: the recorded transform for part `p` is the fold, in track order
starting from the identity, over the run's sampled transforms. -/
theorem animLookup_sampleModel_run (t : ℚ) (p : Id)
    (pre run post : List AnimationTrack)
    (hrun0 : run ≠ []) (hrun : ∀ a ∈ run, a.target = p)
    (hpre : p ∉ pre.map AnimationTrack.target)
    (hpost : p ∉ post.map AnimationTrack.target) :
    animLookup (sampleModel t (pre ++ run ++ post)) p =
      some (run.foldl (fun acc a => acc * (sampleTrack t a).2) 1) := by
  have hkeys : ∀ (l : List AnimationTrack),
      (l.map (sampleTrack t)).map Prod.fst = l.map AnimationTrack.target := by
    intro l
    rw [List.map_map]
    rfl
  have hrunE : ∀ e ∈ run.map (sampleTrack t), e.1 = p := by
    intro e he
    obtain ⟨a, ha, rfl⟩ := List.mem_map.mp he
    exact hrun a ha
  have hrunE0 : run.map (sampleTrack t) ≠ [] := by
    simpa using hrun0
  -- group decomposition
  have hgrp : binary_group_by_key
      ((pre ++ run ++ post).map (sampleTrack t)) =
      binary_group_by_key (pre.map (sampleTrack t)) ++
        [run.map (sampleTrack t)] ++
        binary_group_by_key (post.map (sampleTrack t)) := by
    have hconst : binary_group_by_key (run.map (sampleTrack t)) =
        [run.map (sampleTrack t)] :=
      bgbk_const_run p _ hrunE0 hrunE
    have hmid : binary_group_by_key (run.map (sampleTrack t) ++
        post.map (sampleTrack t)) =
        [run.map (sampleTrack t)] ++ binary_group_by_key (post.map (sampleTrack t)) := by
      cases hp : post.map (sampleTrack t) with
      | nil => simpa [hp] using hconst
      | cons z zs =>
        rw [← hconst]
        apply bgbk_append_of_ne
        intro a ha
        rw [hrunE a ha]
        intro hcon
        apply hpost
        have : z ∈ post.map (sampleTrack t) := by rw [hp]; simp
        obtain ⟨b, hb, hbz⟩ := List.mem_map.mp this
        rw [hcon, ← hbz]
        exact List.mem_map.mpr ⟨b, hb, rfl⟩
    have houter : binary_group_by_key (pre.map (sampleTrack t) ++
        (run.map (sampleTrack t) ++ post.map (sampleTrack t))) =
        binary_group_by_key (pre.map (sampleTrack t)) ++
          binary_group_by_key (run.map (sampleTrack t) ++ post.map (sampleTrack t)) := by
      cases hr : run.map (sampleTrack t) with
      | nil => exact absurd hr hrunE0
      | cons e es =>
        rw [List.cons_append]
        apply bgbk_append_of_ne
        intro a ha
        have hap : a.1 ∈ pre.map AnimationTrack.target := by
          rw [← hkeys]
          exact List.mem_map.mpr ⟨a, ha, rfl⟩
        have hep : e.1 = p := hrunE e (by rw [hr]; simp)
        rw [hep]
        intro hcon
        exact hpre (hcon ▸ hap)
    calc binary_group_by_key ((pre ++ run ++ post).map (sampleTrack t))
        = binary_group_by_key (pre.map (sampleTrack t) ++
            (run.map (sampleTrack t) ++ post.map (sampleTrack t))) := by
          simp [List.map_append]
      _ = binary_group_by_key (pre.map (sampleTrack t)) ++
            binary_group_by_key (run.map (sampleTrack t) ++ post.map (sampleTrack t)) :=
          houter
      _ = binary_group_by_key (pre.map (sampleTrack t)) ++
            ([run.map (sampleTrack t)] ++
              binary_group_by_key (post.map (sampleTrack t))) := by rw [hmid]
      _ = _ := by simp
  -- the mapped entry for the run
  have hf : (((run.map (sampleTrack t)).headD (0, 1)).1,
        (run.map (sampleTrack t)).foldl (fun acc v => acc * v.2) 1) =
      (p, run.foldl (fun acc a => acc * (sampleTrack t a).2) 1) := by
    cases hr : run.map (sampleTrack t) with
    | nil => exact absurd hr hrunE0
    | cons e es =>
      have hep : e.1 = p := hrunE e (by rw [hr]; simp)
      have hfold : List.foldl (fun acc v => acc * v.2) 1 (e :: es) =
          run.foldl (fun acc a => acc * (sampleTrack t a).2) 1 := by
        rw [← hr, List.foldl_map]
      rw [List.headD_cons, hep, hfold]
  -- keys appearing after the run's entry
  have hafter : p ∉ ((binary_group_by_key (post.map (sampleTrack t))).map
      (fun g => ((g.headD (0, 1)).1, g.foldl (fun acc v => acc * v.2) 1))).map Prod.fst := by
    intro hcon
    obtain ⟨e, he, hep⟩ := List.mem_map.mp hcon
    obtain ⟨g, hg, hge⟩ := List.mem_map.mp he
    have hgne : g ≠ [] := by
      intro hnil
      exact bgbk_ne_nil_mem _ (hnil ▸ hg)
    have hhead : g.headD (0, 1) ∈ post.map (sampleTrack t) :=
      bgbk_group_elem_mem hg (headD_mem hgne (0, 1))
    apply hpost
    rw [← hkeys]
    rw [← hge] at hep
    simp only at hep
    rw [← hep]
    exact List.mem_map.mpr ⟨_, hhead, rfl⟩
  -- put it together
  unfold sampleModel
  rw [hgrp]
  rw [List.map_append, List.map_append, List.map_singleton, hf]
  rw [List.append_assoc, List.singleton_append]
  rw [animLookup_append]
  have hlook : animLookup
      ((p, run.foldl (fun acc a => acc * (sampleTrack t a).2) 1) ::
        (binary_group_by_key (post.map (sampleTrack t))).map
          (fun g => ((g.headD (0, 1)).1, g.foldl (fun acc v => acc * v.2) 1))) p =
      some (run.foldl (fun acc a => acc * (sampleTrack t a).2) 1) := by
    simp only [animLookup, animLookup_eq_none_of_not_mem hafter]
    simp
  rw [hlook]

/-- C6 (amended). For every animation track, the sampled transform at
elapsed time `t` is the output at the partition point of the ascending
keyframe times below `wrapped = t mod duration` — the first keyframe whose
time is ≥ `wrapped`, with no interpolation (`src/renderer.rs:138-142`); and
when several tracks target the same part *and all tracks with that target are
consecutive in track order*, that part's transform is the sequential matrix
product, in track order starting from the identity, of each track's sampled
transform (`src/renderer.rs:146-149`). (Amendment: the consecutiveness
condition is forced — see `animation_compose_counterexample` — because the
code groups only maximal consecutive runs and the `HashMap` collect keeps
only the last run per target.) -/
theorem animation_stepped_compose_amended (t : ℚ) (p : Id)
    (anims pre run post : List AnimationTrack)
    (hsplit : anims = pre ++ run ++ post)
    (hrun0 : run ≠ []) (hrun : ∀ a ∈ run, a.target = p)
    (hpre : p ∉ pre.map AnimationTrack.target)
    (hpost : p ∉ post.map AnimationTrack.target)
    (hsort : ∀ a ∈ anims, a.inputs.Sorted (· ≤ ·)) :
    (∀ a ∈ anims,
      sampleTrack t a = (a.target, a.outputs.getD (trackIndex t a) 1) ∧
      (∀ j, j < trackIndex t a → a.inputs.getD j 0 < trackWrapped t a) ∧
      (trackIndex t a < a.inputs.length →
        trackWrapped t a ≤ a.inputs.getD (trackIndex t a) 0)) ∧
    animLookup (sampleModel t anims) p =
      some (run.foldl (fun acc a => acc * (sampleTrack t a).2) 1) := by
  constructor
  · intro a _
    refine ⟨rfl, ?_, ?_⟩
    · intro j hj
      have h := takeWhile_getD_pred (fun v => decide (v < trackWrapped t a)) 0 a.inputs j hj
      exact of_decide_eq_true h
    · intro hidx
      have h := takeWhile_getD_false (fun v => decide (v < trackWrapped t a)) 0 a.inputs hidx
      simp only [decide_eq_false_iff_not, not_lt] at h
      exact h
  · rw [hsplit]
    exact animLookup_sampleModel_run t p pre run post hrun0 hrun hpre hpost

theorem animation_stepped_compose_amended_witness :
    ([⟨1, [1], [1]⟩, ⟨0, [1], [1]⟩] : List AnimationTrack) =
      [⟨1, [1], [1]⟩] ++ [⟨0, [1], [1]⟩] ++ [] ∧
    ([⟨0, [1], [1]⟩] : List AnimationTrack) ≠ [] ∧
    (∀ a ∈ ([⟨0, [1], [1]⟩] : List AnimationTrack), a.target = 0) ∧
    (0 : Id) ∉ ([⟨1, [1], [1]⟩] : List AnimationTrack).map AnimationTrack.target ∧
    (0 : Id) ∉ ([] : List AnimationTrack).map AnimationTrack.target ∧
    (∀ a ∈ ([⟨1, [1], [1]⟩, ⟨0, [1], [1]⟩] : List AnimationTrack),
      a.inputs.Sorted (· ≤ ·)) ∧
    ((∀ a ∈ ([⟨1, [1], [1]⟩, ⟨0, [1], [1]⟩] : List AnimationTrack),
      sampleTrack 0 a = (a.target, a.outputs.getD (trackIndex 0 a) 1) ∧
      (∀ j, j < trackIndex 0 a → a.inputs.getD j 0 < trackWrapped 0 a) ∧
      (trackIndex 0 a < a.inputs.length →
        trackWrapped 0 a ≤ a.inputs.getD (trackIndex 0 a) 0)) ∧
    animLookup (sampleModel 0 [⟨1, [1], [1]⟩, ⟨0, [1], [1]⟩]) 0 =
      some (([⟨0, [1], [1]⟩] : List AnimationTrack).foldl
        (fun acc a => acc * (sampleTrack 0 a).2) 1)) :=
  ⟨rfl, by simp, by intro a ha; rw [List.mem_singleton] at ha; subst ha; rfl,
    by decide, by decide,
    by
      intro a ha
      simp only [List.mem_cons, List.mem_singleton] at ha
      rcases ha with rfl | rfl | h
      · simp
      · simp
      · simp at h,
    animation_stepped_compose_amended 0 0 _ [⟨1, [1], [1]⟩] [⟨0, [1], [1]⟩] [] rfl
      (by simp) (by intro a ha; rw [List.mem_singleton] at ha; subst ha; rfl)
      (by decide) (by decide)
      (by
        intro a ha
        simp only [List.mem_cons, List.mem_singleton] at ha
        rcases ha with rfl | rfl | h
        · simp
        · simp
        · simp at h)⟩

/-- C6, counterexample. The claim as stated fails when the tracks
targeting a part are not consecutive: with tracks targeting parts `0, 1, 0`
(outputs `0`, `1`, `1`), the recorded transform for part `0` is the fold of
the *last* run only (`1 * 1 = 1`), not the sequential product over all tracks
targeting part `0` in track order (`(1 * 0) * 1 = 0`), because
`binary_group_by_key` groups only consecutive runs and the later `HashMap`
entry overwrites the earlier one (`src/renderer.rs:146-149`). -/
theorem animation_compose_counterexample :
    animLookup
        (sampleModel 0 [⟨0, [1], [0]⟩, ⟨1, [1], [1]⟩, ⟨0, [1], [1]⟩]) 0 ≠
      some ((([⟨0, [1], [0]⟩, ⟨1, [1], [1]⟩, ⟨0, [1], [1]⟩] :
          List AnimationTrack).filter (fun a => a.target == 0)).foldl
        (fun acc a => acc * (sampleTrack 0 a).2) 1) := by
  with_unfolding_all decide

/-! ### Reduction lemmas for `inner_render` and `renderStep` -/

theorem inner_render_error (st : RendererState) (size : WindowSize)
    (s : Bool) (gi : Option (List (InstanceData × Id)))
    (ei : List (InstanceData × Id)) (e : SurfaceError) :
    inner_render st size (.error e) s gi ei = (st, .error e, []) := rfl

theorem inner_render_mismatch (st : RendererState) (size : WindowSize)
    (tex : SurfaceTexture) (s : Bool) (gi : Option (List (InstanceData × Id)))
    (ei : List (InstanceData × Id))
    (hm : tex.width ≠ size.width ∨ tex.height ≠ size.height) :
    inner_render st size (.ok tex) s gi ei = (st, .ok (), []) := by
  unfold inner_render
  simp [hm]

/-- The trailing fixed passes of a drawn frame. -/
def tailPasses (s : Bool) : List GpuCmd :=
  [GpuCmd.postProcessingPass, GpuCmd.antialiasingPass, GpuCmd.guiPass,
    GpuCmd.combinePass, GpuCmd.presentPass] ++
    (if s then [GpuCmd.screenshotPass] else []) ++ [GpuCmd.present]

theorem inner_render_fresh (st : RendererState) (size : WindowSize)
    (tex : SurfaceTexture) (s : Bool) (l ei : List (InstanceData × Id))
    (hm : ¬(tex.width ≠ size.width ∨ tex.height ≠ size.height)) :
    inner_render st size (.ok tex) s (some l) ei =
      ({ st with lastGameData := some (indirect_instance l) }, .ok (),
        [GpuCmd.extraObjectsPass (indirect_instance ei),
          GpuCmd.gamePass (indirect_instance l)] ++ tailPasses s) := by
  unfold inner_render
  simp [hm, tailPasses]

theorem inner_render_carry (st : RendererState) (size : WindowSize)
    (tex : SurfaceTexture) (s : Bool) (gd : GameData)
    (ei : List (InstanceData × Id))
    (hm : ¬(tex.width ≠ size.width ∨ tex.height ≠ size.height))
    (hl : st.lastGameData = some gd) :
    inner_render st size (.ok tex) s none ei =
      ({ st with lastGameData := some gd }, .ok (),
        [GpuCmd.extraObjectsPass (indirect_instance ei),
          GpuCmd.gamePass gd] ++ tailPasses s) := by
  unfold inner_render
  simp [hm, hl, tailPasses]

theorem inner_render_skip (st : RendererState) (size : WindowSize)
    (tex : SurfaceTexture) (s : Bool) (ei : List (InstanceData × Id))
    (hm : ¬(tex.width ≠ size.width ∨ tex.height ≠ size.height))
    (hl : st.lastGameData = none) :
    inner_render st size (.ok tex) s none ei =
      ({ st with lastGameData := none }, .ok (),
        [GpuCmd.extraObjectsPass (indirect_instance ei)] ++ tailPasses s) := by
  unfold inner_render
  simp [hm, hl, tailPasses]

/-- Factoring: `renderStep` on a frame that reaches `inner_render` (non-zero window, a
cached snapshot) factors through `updateGate` and `frameExtras`. -/
theorem renderStep_main (geom : Geometry) (rm : ResourceManager)
    (st : RendererState) (inp : FrameInput) (snap : Snapshot)
    (hz : ¬(inp.windowSize.width = 0 ∨ inp.windowSize.height = 0))
    (hc : st.renderInfoCache = some snap) :
    renderStep geom rm st inp =
      ⟨(inner_render (updateGate geom rm st inp snap).1 inp.windowSize
          inp.surface inp.screenshotting (updateGate geom rm st inp snap).2
          (frameExtras geom rm st inp snap)).1,
        (inner_render (updateGate geom rm st inp snap).1 inp.windowSize
          inp.surface inp.screenshotting (updateGate geom rm st inp snap).2
          (frameExtras geom rm st inp snap)).2.1,
        (inner_render (updateGate geom rm st inp snap).1 inp.windowSize
          inp.surface inp.screenshotting (updateGate geom rm st inp snap).2
          (frameExtras geom rm st inp snap)).2.2,
        !st.renderInfoUpdating, !st.transactionRecordsUpdating⟩ := by
  unfold renderStep updateGate drainedState frameExtras
  by_cases hri : st.renderInfoUpdating <;>
    by_cases htx : st.transactionRecordsUpdating <;>
      cases hlu : st.lastUpdate <;>
        simp [hz, hc, hri, htx, hlu]

/-! ### Claims C3 and C4 -/

theorem renderStep_skip_aux (geom : Geometry) (rm : ResourceManager)
    (st : RendererState) (inp : FrameInput)
    (h : inp.windowSize.width = 0 ∨ inp.windowSize.height = 0 ∨
      st.renderInfoCache = none) :
    (renderStep geom rm st inp).result = .ok () ∧
      (renderStep geom rm st inp).cmds = [] := by
  unfold renderStep
  by_cases hz : inp.windowSize.width = 0 ∨ inp.windowSize.height = 0
  · simp [hz]
  · have hc : st.renderInfoCache = none := by tauto
    by_cases hri : st.renderInfoUpdating <;> simp [hz, hc, hri]

/-- C3. `Renderer::render` returns success having issued no GPU commands
whenever the window's inner size is zero in either dimension
(`src/renderer.rs:176-180`), or whenever the render-info cache holds no
snapshot yet (`src/renderer.rs:219-222`). -/
theorem render_skip_frame (geom : Geometry) (rm : ResourceManager)
    (st : RendererState) (inp : FrameInput)
    (h : inp.windowSize.width = 0 ∨ inp.windowSize.height = 0 ∨
      st.renderInfoCache = none) :
    (renderStep geom rm st inp).result = .ok () ∧
      (renderStep geom rm st inp).cmds = [] :=
  renderStep_skip_aux geom rm st inp h

theorem render_skip_frame_witness :
    (inpZeroW.windowSize.width = 0 ∨ inpZeroW.windowSize.height = 0 ∨
      initialState.renderInfoCache = none) ∧
    ((renderStep geom0 rm0 initialState inpZeroW).result = .ok () ∧
      (renderStep geom0 rm0 initialState inpZeroW).cmds = []) :=
  ⟨Or.inl rfl, render_skip_frame geom0 rm0 initialState inpZeroW (Or.inl rfl)⟩

/-- C4. `Renderer::render` returns an error if and only if acquiring the
current surface texture fails (the only `?` in the frame path,
`src/renderer.rs:504`), in which case the `SurfaceError` is propagated
unchanged to the caller; and if the acquired surface texture's size differs
from the window size in either dimension, render instead returns success
with nothing drawn (`src/renderer.rs:506-512`). -/
theorem render_surface_error_propagation (geom : Geometry)
    (rm : ResourceManager) (st : RendererState) (inp : FrameInput)
    (e : SurfaceError) (tex : SurfaceTexture) :
    ((renderStep geom rm st inp).result = .error e ↔
      (¬(inp.windowSize.width = 0 ∨ inp.windowSize.height = 0) ∧
        st.renderInfoCache ≠ none ∧ inp.surface = .error e)) ∧
    (inp.surface = .ok tex →
      (tex.width ≠ inp.windowSize.width ∨ tex.height ≠ inp.windowSize.height) →
      (renderStep geom rm st inp).result = .ok () ∧
        (renderStep geom rm st inp).cmds = []) := by
  constructor
  · by_cases hz : inp.windowSize.width = 0 ∨ inp.windowSize.height = 0
    · rw [(renderStep_skip_aux geom rm st inp (by tauto)).1]
      exact ⟨fun hcon => absurd hcon (by simp),
        fun hcon => absurd hz hcon.1⟩
    · cases hc : st.renderInfoCache with
      | none =>
        rw [(renderStep_skip_aux geom rm st inp (Or.inr (Or.inr hc))).1]
        exact ⟨fun hcon => absurd hcon (by simp),
          fun hcon => absurd rfl hcon.2.1⟩
      | some snap =>
        rw [renderStep_main geom rm st inp snap hz hc]
        cases hs : inp.surface with
        | error e' => simp [hs, inner_render_error, hz, hc]
        | ok tex' =>
          by_cases hm : tex'.width ≠ inp.windowSize.width ∨
              tex'.height ≠ inp.windowSize.height
          · simp [hs, inner_render_mismatch _ _ _ _ _ _ hm, hz, hc]
          · cases hgi : (updateGate geom rm st inp snap).2 with
            | some l =>
              simp [hs, hgi, inner_render_fresh _ _ _ _ _ _ hm, hz, hc]
            | none =>
              cases hl : (updateGate geom rm st inp snap).1.lastGameData with
              | some gd =>
                simp [hs, hgi, inner_render_carry _ _ _ _ gd _ hm hl, hz, hc]
              | none =>
                simp [hs, hgi, inner_render_skip _ _ _ _ _ hm hl, hz, hc]
  · intro hs hm
    by_cases hz : inp.windowSize.width = 0 ∨ inp.windowSize.height = 0
    · exact renderStep_skip_aux geom rm st inp (by tauto)
    · cases hc : st.renderInfoCache with
      | none => exact renderStep_skip_aux geom rm st inp (Or.inr (Or.inr hc))
      | some snap =>
        rw [renderStep_main geom rm st inp snap hz hc]
        simp [hs, inner_render_mismatch _ _ _ _ _ _ hm]

theorem render_surface_error_propagation_witness :
    (((renderStep geom0 rm0 stCarry inpErr).result = .error .lost ↔
      (¬(inpErr.windowSize.width = 0 ∨ inpErr.windowSize.height = 0) ∧
        stCarry.renderInfoCache ≠ none ∧
        inpErr.surface = .error .lost)) ∧
      (inpErr.surface = .ok ⟨2, 2⟩ →
        ((2 : Nat) ≠ inpErr.windowSize.width ∨ (2 : Nat) ≠ inpErr.windowSize.height) →
        (renderStep geom0 rm0 stCarry inpErr).result = .ok () ∧
          (renderStep geom0 rm0 stCarry inpErr).cmds = [])) ∧
    (((renderStep geom0 rm0 stCarry inpMismatch).result = .error .lost ↔
      (¬(inpMismatch.windowSize.width = 0 ∨ inpMismatch.windowSize.height = 0) ∧
        stCarry.renderInfoCache ≠ none ∧
        inpMismatch.surface = .error .lost)) ∧
      (inpMismatch.surface = .ok ⟨2, 2⟩ →
        ((2 : Nat) ≠ inpMismatch.windowSize.width ∨
          (2 : Nat) ≠ inpMismatch.windowSize.height) →
        (renderStep geom0 rm0 stCarry inpMismatch).result = .ok () ∧
          (renderStep geom0 rm0 stCarry inpMismatch).cmds = [])) :=
  ⟨render_surface_error_propagation geom0 rm0 stCarry inpErr .lost ⟨2, 2⟩,
    render_surface_error_propagation geom0 rm0 stCarry inpMismatch .lost ⟨2, 2⟩⟩

/-! ### Claim C8: rate-limited recompute with carry-over -/

theorem updateGate_carry (geom : Geometry) (rm : ResourceManager)
    (st : RendererState) (inp : FrameInput) (snap : Snapshot) (lu : ℚ)
    (hlu : st.lastUpdate = some lu)
    (h : duration_since inp.now lu < UPDATE_INTERVAL) :
    updateGate geom rm st inp snap = (drainedState st, none) := by
  unfold updateGate
  rw [hlu]
  simp [h]

theorem updateGate_fresh (geom : Geometry) (rm : ResourceManager)
    (st : RendererState) (inp : FrameInput) (snap : Snapshot) (lu : ℚ)
    (hlu : st.lastUpdate = some lu)
    (h : ¬duration_since inp.now lu < UPDATE_INTERVAL) :
    updateGate geom rm st inp snap =
      ({ drainedState st with lastUpdate := some inp.now },
        some (computeGameInstances geom rm inp.elapsed inp.cameraPos
          st.tileTints snap).1) := by
  unfold updateGate
  rw [hlu]
  simp [h]

theorem gamePass_not_mem_tailPasses (g : GameData) (s : Bool) :
    GpuCmd.gamePass g ∉ tailPasses s := by
  cases s <;> simp [tailPasses]

/-- C8. The primary tile instance batch is recomputed only when at least
the fixed update interval (`UPDATE_INTERVAL`, 1/60 s) has elapsed since the
previous recompute (`src/renderer.rs:347-353`); on every other frame the
previous frame's packed batch is reused unmodified for the main tile pass,
and if neither a freshly recomputed nor a carried-over batch exists the main
tile pass is skipped without error (`src/renderer.rs:635-637`). -/
theorem render_batch_recompute_carry (geom : Geometry) (rm : ResourceManager)
    (st : RendererState) (inp : FrameInput) (snap : Snapshot)
    (tex : SurfaceTexture) (lu : ℚ)
    (hz : ¬(inp.windowSize.width = 0 ∨ inp.windowSize.height = 0))
    (hc : st.renderInfoCache = some snap)
    (hs : inp.surface = .ok tex)
    (hm : ¬(tex.width ≠ inp.windowSize.width ∨ tex.height ≠ inp.windowSize.height))
    (hlu : st.lastUpdate = some lu) :
    if duration_since inp.now lu < UPDATE_INTERVAL then
      (renderStep geom rm st inp).state.lastUpdate = some lu ∧
      (renderStep geom rm st inp).state.lastGameData = st.lastGameData ∧
      (∀ g, GpuCmd.gamePass g ∈ (renderStep geom rm st inp).cmds ↔
        st.lastGameData = some g) ∧
      (renderStep geom rm st inp).result = .ok ()
    else
      (renderStep geom rm st inp).state.lastUpdate = some inp.now ∧
      (renderStep geom rm st inp).state.lastGameData =
        some (indirect_instance (computeGameInstances geom rm inp.elapsed
          inp.cameraPos st.tileTints snap).1) ∧
      GpuCmd.gamePass (indirect_instance (computeGameInstances geom rm
        inp.elapsed inp.cameraPos st.tileTints snap).1) ∈
        (renderStep geom rm st inp).cmds ∧
      (renderStep geom rm st inp).result = .ok () := by
  rw [renderStep_main geom rm st inp snap hz hc]
  by_cases hint : duration_since inp.now lu < UPDATE_INTERVAL
  · rw [if_pos hint, updateGate_carry geom rm st inp snap lu hlu hint]
    cases hgd : st.lastGameData with
    | some gd =>
      have hgd' : (drainedState st).lastGameData = some gd := by
        simp [drainedState, hgd]
      rw [hs]
      rw [inner_render_carry (drainedState st) inp.windowSize tex
        inp.screenshotting gd _ hm hgd']
      refine ⟨by simp [drainedState, hlu], by simp [drainedState], ?_, rfl⟩
      intro g
      simp only [List.cons_append, List.mem_cons, List.nil_append]
      constructor
      · intro hmem
        rcases hmem with h1 | h1 | h1
        · exact absurd h1 (by simp)
        · rw [GpuCmd.gamePass.injEq] at h1
          rw [h1]
        · exact absurd h1 (gamePass_not_mem_tailPasses g inp.screenshotting)
      · intro hsome
        rw [Option.some.injEq] at hsome
        exact Or.inr (Or.inl (by rw [hsome]))
    | none =>
      have hgd' : (drainedState st).lastGameData = none := by
        simp [drainedState, hgd]
      rw [hs]
      rw [inner_render_skip (drainedState st) inp.windowSize tex
        inp.screenshotting _ hm hgd']
      refine ⟨by simp [drainedState, hlu], by simp [drainedState], ?_, rfl⟩
      intro g
      simp only [List.cons_append, List.mem_cons, List.nil_append]
      constructor
      · intro hmem
        rcases hmem with h1 | h1
        · exact absurd h1 (by simp)
        · exact absurd h1 (gamePass_not_mem_tailPasses g inp.screenshotting)
      · intro hsome
        exact absurd hsome (by simp)
  · rw [if_neg hint, updateGate_fresh geom rm st inp snap lu hlu hint]
    rw [hs]
    rw [inner_render_fresh _ inp.windowSize tex inp.screenshotting _ _ hm]
    refine ⟨by simp [drainedState], by simp [drainedState], ?_, rfl⟩
    simp

theorem render_batch_recompute_carry_witness :
    (if duration_since inpOk.now 0 < UPDATE_INTERVAL then
      (renderStep geom0 rm0 stCarry inpOk).state.lastUpdate = some 0 ∧
      (renderStep geom0 rm0 stCarry inpOk).state.lastGameData =
        stCarry.lastGameData ∧
      (∀ g, GpuCmd.gamePass g ∈ (renderStep geom0 rm0 stCarry inpOk).cmds ↔
        stCarry.lastGameData = some g) ∧
      (renderStep geom0 rm0 stCarry inpOk).result = .ok ()
    else
      (renderStep geom0 rm0 stCarry inpOk).state.lastUpdate = some inpOk.now ∧
      (renderStep geom0 rm0 stCarry inpOk).state.lastGameData =
        some (indirect_instance (computeGameInstances geom0 rm0 inpOk.elapsed
          inpOk.cameraPos stCarry.tileTints ⟨[], []⟩).1) ∧
      GpuCmd.gamePass (indirect_instance (computeGameInstances geom0 rm0
        inpOk.elapsed inpOk.cameraPos stCarry.tileTints ⟨[], []⟩).1) ∈
        (renderStep geom0 rm0 stCarry inpOk).cmds ∧
      (renderStep geom0 rm0 stCarry inpOk).result = .ok ()) ∧
    (if duration_since inpLater.now 0 < UPDATE_INTERVAL then
      (renderStep geom0 rm0 stCarry inpLater).state.lastUpdate = some 0 ∧
      (renderStep geom0 rm0 stCarry inpLater).state.lastGameData =
        stCarry.lastGameData ∧
      (∀ g, GpuCmd.gamePass g ∈ (renderStep geom0 rm0 stCarry inpLater).cmds ↔
        stCarry.lastGameData = some g) ∧
      (renderStep geom0 rm0 stCarry inpLater).result = .ok ()
    else
      (renderStep geom0 rm0 stCarry inpLater).state.lastUpdate =
        some inpLater.now ∧
      (renderStep geom0 rm0 stCarry inpLater).state.lastGameData =
        some (indirect_instance (computeGameInstances geom0 rm0
          inpLater.elapsed inpLater.cameraPos stCarry.tileTints ⟨[], []⟩).1) ∧
      GpuCmd.gamePass (indirect_instance (computeGameInstances geom0 rm0
        inpLater.elapsed inpLater.cameraPos stCarry.tileTints ⟨[], []⟩).1) ∈
        (renderStep geom0 rm0 stCarry inpLater).cmds ∧
      (renderStep geom0 rm0 stCarry inpLater).result = .ok ()) :=
  ⟨render_batch_recompute_carry geom0 rm0 stCarry inpOk ⟨[], []⟩ ⟨1, 1⟩ 0
      (by decide) rfl rfl (by decide) rfl,
    render_batch_recompute_carry geom0 rm0 stCarry inpLater ⟨[], []⟩ ⟨1, 1⟩ 0
      (by decide) rfl rfl (by decide) rfl⟩

/-! ### Claim C9: per-frame tint overlay -/

theorem inner_render_tileTints (st : RendererState) (size : WindowSize)
    (surf : Except SurfaceError SurfaceTexture) (sc : Bool)
    (gi : Option (List (InstanceData × Id))) (ei : List (InstanceData × Id)) :
    (inner_render st size surf sc gi ei).1.tileTints = st.tileTints := by
  cases surf with
  | error e => rfl
  | ok tex =>
    by_cases hm : tex.width ≠ size.width ∨ tex.height ≠ size.height
    · rw [inner_render_mismatch st size tex sc gi ei hm]
    · cases gi with
      | some l => rw [inner_render_fresh st size tex sc l ei hm]
      | none =>
        cases hl : st.lastGameData with
        | some gd => rw [inner_render_carry st size tex sc gd ei hm hl]
        | none => rw [inner_render_skip st size tex sc ei hm hl]

theorem updateGate_tileTints (geom : Geometry) (rm : ResourceManager)
    (st : RendererState) (inp : FrameInput) (snap : Snapshot) :
    (updateGate geom rm st inp snap).1.tileTints = [] := by
  unfold updateGate
  cases st.lastUpdate with
  | none => simp [drainedState]
  | some lu =>
    by_cases h : duration_since inp.now lu < UPDATE_INTERVAL <;>
      simp [h, drainedState]

theorem renderStep_tileTints_empty (geom : Geometry) (rm : ResourceManager)
    (st : RendererState) (inp : FrameInput) :
    (renderStep geom rm st inp).state.tileTints = [] := by
  by_cases hz : inp.windowSize.width = 0 ∨ inp.windowSize.height = 0
  · unfold renderStep
    simp [hz]
  · cases hc : st.renderInfoCache with
    | none =>
      unfold renderStep
      by_cases hri : st.renderInfoUpdating <;> simp [hz, hc, hri]
    | some snap =>
      rw [renderStep_main geom rm st inp snap hz hc]
      show (inner_render _ _ _ _ _ _).1.tileTints = []
      rw [inner_render_tileTints, updateGate_tileTints]

theorem mem_foldl_of_mono {α β : Type} (f : List α → β → List α)
    (hf : ∀ acc b x, x ∈ acc → x ∈ f acc b) :
    ∀ (bs : List β) (acc : List α) (x : α), x ∈ acc → x ∈ bs.foldl f acc := by
  intro bs
  induction bs with
  | nil => intro acc x hx; simpa using hx
  | cons b bs ih => intro acc x hx; exact ih _ _ (hf acc b x hx)

theorem fillRenderInfo_mem (geom : Geometry) (rm : ResourceManager)
    (cameraPos : ℚ × ℚ × ℚ) {info : List (TileCoord × (Id × RenderUnit))}
    {e : TileCoord × (Id × RenderUnit)} (he : e ∈ info) :
    e ∈ fillRenderInfo geom rm cameraPos info := by
  unfold fillRenderInfo
  apply mem_foldl_of_mono _ _ _ _ _ he
  intro acc b x hx
  dsimp only
  split
  · exact hx
  · split
    · exact List.mem_append_left _ hx
    · exact hx

theorem applyOverrides_mem (geom : Geometry) (rm : ResourceManager)
    (allData : List (TileCoord × DataMap))
    {info : List (TileCoord × (Id × RenderUnit))}
    {e : TileCoord × (Id × RenderUnit)} (he : e ∈ info) :
    ∃ u', (e.1, (e.2.1, u')) ∈ applyOverrides geom rm allData info ∧
      u'.inst = e.2.2.inst := by
  unfold applyOverrides
  cases hdir : ((allData.lookup e.1).bind DataMap.direction).bind
      geom.tileDirectionToAngle with
  | some θ =>
    refine ⟨e.2.2, List.mem_map.mpr ⟨e, he, ?_⟩, rfl⟩
    dsimp only
    rw [hdir]
  | none =>
    cases hin : (rm.tileOrDefault e.2.1).inactiveModel with
    | some inactive =>
      refine ⟨{ e.2.2 with modelOverride := some (rm.modelOrMissing inactive) },
        List.mem_map.mpr ⟨e, he, ?_⟩, rfl⟩
      dsimp only
      rw [hdir, hin]
    | none =>
      refine ⟨e.2.2, List.mem_map.mpr ⟨e, he, ?_⟩, rfl⟩
      dsimp only
      rw [hdir, hin]

theorem applyTints_mem (tints : List (TileCoord × Vec4)) (cameraPos : ℚ × ℚ × ℚ)
    {info : List (TileCoord × (Id × RenderUnit))}
    {e : TileCoord × (Id × RenderUnit)} (he : e ∈ info) {col : Vec4}
    (hcol : tints.lookup e.1 = some col) :
    ∃ u', (e.1, (e.2.1, u')) ∈ applyTints tints cameraPos info ∧
      u'.inst.colorOffset = col := by
  unfold applyTints
  refine ⟨{ e.2.2 with
      inst := (e.2.2.inst.with_color_offset col).with_light_pos cameraPos },
    List.mem_map.mpr ⟨e, he, ?_⟩, rfl⟩
  dsimp only
  rw [hcol]

theorem collectInstances_acc_mono (geom : Geometry) (rm : ResourceManager)
    (elapsed : ℚ) :
    ∀ (info : List (TileCoord × (Id × RenderUnit)))
      (acc : List (InstanceData × Id × (ℚ × ℚ)) × AnimationMap)
      (y : InstanceData × Id × (ℚ × ℚ)), y ∈ acc.1 →
      y ∈ (info.foldl (fun acc entry =>
        (acc.1 ++ [(entry.2.2.inst,
            (entry.2.2.modelOverride.getD
              (((rm.tiles.lookup entry.2.1).map TileDef.model).getD rm.modelMissing)),
            geom.hexToWorldPos entry.1)],
          (try_add_animation rm elapsed
            (entry.2.2.modelOverride.getD
              (((rm.tiles.lookup entry.2.1).map TileDef.model).getD rm.modelMissing))
            acc.2).2)) acc).1 := by
  intro info
  induction info with
  | nil => intro acc y hy; simpa using hy
  | cons x xs ih =>
    intro acc y hy
    exact ih _ y (List.mem_append_left _ hy)

theorem collectInstances_mem (geom : Geometry) (rm : ResourceManager)
    (elapsed : ℚ) {e : TileCoord × (Id × RenderUnit)} :
    ∀ {info : List (TileCoord × (Id × RenderUnit))} (am : AnimationMap),
      e ∈ info →
      ∃ m p, (e.2.2.inst, m, p) ∈ (collectInstances geom rm elapsed info am).1 := by
  have key : ∀ (info : List (TileCoord × (Id × RenderUnit)))
      (acc : List (InstanceData × Id × (ℚ × ℚ)) × AnimationMap), e ∈ info →
      ∃ m p, (e.2.2.inst, m, p) ∈ (info.foldl (fun acc entry =>
        (acc.1 ++ [(entry.2.2.inst,
            (entry.2.2.modelOverride.getD
              (((rm.tiles.lookup entry.2.1).map TileDef.model).getD rm.modelMissing)),
            geom.hexToWorldPos entry.1)],
          (try_add_animation rm elapsed
            (entry.2.2.modelOverride.getD
              (((rm.tiles.lookup entry.2.1).map TileDef.model).getD rm.modelMissing))
            acc.2).2)) acc).1 := by
    intro info
    induction info with
    | nil => intro acc h; simp at h
    | cons x xs ih =>
      intro acc h
      rcases List.mem_cons.mp h with rfl | h
      · refine ⟨e.2.2.modelOverride.getD
            (((rm.tiles.lookup e.2.1).map TileDef.model).getD rm.modelMissing),
          geom.hexToWorldPos e.1,
          collectInstances_acc_mono geom rm elapsed xs _ _ ?_⟩
        exact List.mem_append_right _ (by simp)
      · exact ih _ h
  intro info am he
  unfold collectInstances
  exact key info ([], am) he

theorem mem_insertByDist (center : ℚ × ℚ) (y : InstanceData × Id × (ℚ × ℚ)) :
    ∀ (l : List (InstanceData × Id × (ℚ × ℚ))) (x : InstanceData × Id × (ℚ × ℚ)),
      x ∈ insertByDist center y l ↔ x = y ∨ x ∈ l := by
  intro l
  induction l with
  | nil => intro x; simp [insertByDist]
  | cons z zs ih =>
    intro x
    unfold insertByDist
    split
    · simp
    · rw [List.mem_cons, ih x, List.mem_cons]
      tauto

theorem mem_sortByDist (center : ℚ × ℚ) :
    ∀ (l : List (InstanceData × Id × (ℚ × ℚ))) (x : InstanceData × Id × (ℚ × ℚ)),
      x ∈ sortByDist center l ↔ x ∈ l := by
  intro l
  induction l with
  | nil => intro x; rfl
  | cons z zs ih =>
    intro x
    unfold sortByDist
    rw [mem_insertByDist, ih x, List.mem_cons]

theorem mem_insertByModel (y : InstanceData × Id) :
    ∀ (l : List (InstanceData × Id)) (x : InstanceData × Id),
      x ∈ insertByModel y l ↔ x = y ∨ x ∈ l := by
  intro l
  induction l with
  | nil => intro x; simp [insertByModel]
  | cons z zs ih =>
    intro x
    unfold insertByModel
    split
    · simp
    · rw [List.mem_cons, ih x, List.mem_cons]
      tauto

theorem mem_sortByModel :
    ∀ (l : List (InstanceData × Id)) (x : InstanceData × Id),
      x ∈ sortByModel l ↔ x ∈ l := by
  intro l
  induction l with
  | nil => intro x; rfl
  | cons z zs ih =>
    intro x
    unfold sortByModel
    rw [mem_insertByModel, ih x, List.mem_cons]

theorem computeGameInstances_mem (geom : Geometry) (rm : ResourceManager)
    (elapsed : ℚ) (cameraPos : ℚ × ℚ × ℚ) (tints : List (TileCoord × Vec4))
    (snap : Snapshot) {c : TileCoord} {i : Id} {u : RenderUnit} {col : Vec4}
    (he : (c, (i, u)) ∈ snap.renderInfo)
    (hcol : tints.lookup c = some col) :
    ∃ inst m, (inst, m) ∈ (computeGameInstances geom rm elapsed cameraPos
      tints snap).1 ∧ inst.colorOffset = col := by
  have h1 : (c, (i, u)) ∈ fillRenderInfo geom rm cameraPos snap.renderInfo :=
    fillRenderInfo_mem geom rm cameraPos he
  obtain ⟨u', hm2, _⟩ := applyOverrides_mem geom rm snap.allData h1
  obtain ⟨u'', hm3, hcol3⟩ := applyTints_mem tints cameraPos hm2 hcol
  obtain ⟨m, p, hm4⟩ := collectInstances_mem geom rm elapsed [] hm3
  refine ⟨u''.inst, m, ?_, hcol3⟩
  unfold computeGameInstances
  dsimp only
  exact List.mem_map.mpr ⟨(u''.inst, m, p),
    List.mem_reverse.mpr ((mem_sortByDist _ _ _).mpr hm4), rfl⟩

/-- C9. The tile-tint overlay map is reset to empty on every call to
`Renderer::render` (`mem::take`, `src/renderer.rs:173`), regardless of
whether a batch recompute occurred on that frame — including frames skipped
for zero window size or a missing snapshot; and a coordinate present in the
overlay overrides that tile's color offset in the batch recomputed on that
same call (`src/renderer.rs:417-419`), so a tint affects exactly the one
frame that drains it. -/
theorem render_tint_overlay (geom : Geometry) (rm : ResourceManager)
    (st : RendererState) (inp : FrameInput) (snap : Snapshot)
    (tex : SurfaceTexture) (lu : ℚ) (c : TileCoord) (i : Id) (u : RenderUnit)
    (col : Vec4)
    (hz : ¬(inp.windowSize.width = 0 ∨ inp.windowSize.height = 0))
    (hc : st.renderInfoCache = some snap)
    (hs : inp.surface = .ok tex)
    (hm : ¬(tex.width ≠ inp.windowSize.width ∨ tex.height ≠ inp.windowSize.height))
    (hlu : st.lastUpdate = some lu)
    (hint : ¬duration_since inp.now lu < UPDATE_INTERVAL)
    (he : (c, (i, u)) ∈ snap.renderInfo)
    (hcol : st.tileTints.lookup c = some col) :
    (∀ (g' : Geometry) (r' : ResourceManager) (s' : RendererState)
      (i' : FrameInput), (renderStep g' r' s' i').state.tileTints = []) ∧
    (∃ gd, (renderStep geom rm st inp).state.lastGameData = some gd ∧
      ∃ inst m, (inst, m) ∈ gd.instances ∧ inst.colorOffset = col) := by
  refine ⟨renderStep_tileTints_empty, ?_⟩
  rw [renderStep_main geom rm st inp snap hz hc,
    updateGate_fresh geom rm st inp snap lu hlu hint, hs]
  rw [inner_render_fresh _ inp.windowSize tex inp.screenshotting _ _ hm]
  refine ⟨indirect_instance (computeGameInstances geom rm inp.elapsed
    inp.cameraPos st.tileTints snap).1, by simp, ?_⟩
  obtain ⟨inst, m, hmem, hco⟩ := computeGameInstances_mem geom rm inp.elapsed
    inp.cameraPos st.tileTints snap he hcol
  refine ⟨inst, m, ?_, hco⟩
  show (inst, m) ∈ sortByModel _
  exact (mem_sortByModel _ _).mpr hmem

theorem render_tint_overlay_witness :
    ¬(inpLater.windowSize.width = 0 ∨ inpLater.windowSize.height = 0) ∧
    st9.renderInfoCache = some snap9 ∧
    inpLater.surface = .ok ⟨1, 1⟩ ∧
    st9.lastUpdate = some 0 ∧
    ¬duration_since inpLater.now 0 < UPDATE_INTERVAL ∧
    ((0, 0), (5, (⟨InstanceData.mkDefault, none⟩ : RenderUnit))) ∈
      snap9.renderInfo ∧
    st9.tileTints.lookup (0, 0) = some (1, 0, 0, 1) ∧
    ((∀ (g' : Geometry) (r' : ResourceManager) (s' : RendererState)
      (i' : FrameInput), (renderStep g' r' s' i').state.tileTints = []) ∧
    (∃ gd, (renderStep geom0 rm0 st9 inpLater).state.lastGameData = some gd ∧
      ∃ inst m, (inst, m) ∈ gd.instances ∧ inst.colorOffset = (1, 0, 0, 1))) :=
  ⟨by decide, rfl, rfl, rfl, by with_unfolding_all decide, by simp [snap9],
    by with_unfolding_all decide,
    render_tint_overlay geom0 rm0 st9 inpLater snap9 ⟨1, 1⟩ 0 (0, 0) 5
      ⟨InstanceData.mkDefault, none⟩ (1, 0, 0, 1) (by decide) rfl rfl
      (by decide) rfl (by with_unfolding_all decide) (by simp [snap9])
      (by with_unfolding_all decide)⟩

/-! ### Claims C1 and C2: the fetch protocol -/

theorem inner_render_flags (st : RendererState) (size : WindowSize)
    (surf : Except SurfaceError SurfaceTexture) (sc : Bool)
    (gi : Option (List (InstanceData × Id))) (ei : List (InstanceData × Id)) :
    (inner_render st size surf sc gi ei).1.renderInfoUpdating =
      st.renderInfoUpdating ∧
    (inner_render st size surf sc gi ei).1.transactionRecordsUpdating =
      st.transactionRecordsUpdating := by
  cases surf with
  | error e => exact ⟨rfl, rfl⟩
  | ok tex =>
    by_cases hm : tex.width ≠ size.width ∨ tex.height ≠ size.height
    · rw [inner_render_mismatch st size tex sc gi ei hm]
      exact ⟨rfl, rfl⟩
    · cases gi with
      | some l =>
        rw [inner_render_fresh st size tex sc l ei hm]
        exact ⟨rfl, rfl⟩
      | none =>
        cases hl : st.lastGameData with
        | some gd =>
          rw [inner_render_carry st size tex sc gd ei hm hl]
          exact ⟨rfl, rfl⟩
        | none =>
          rw [inner_render_skip st size tex sc ei hm hl]
          exact ⟨rfl, rfl⟩

theorem updateGate_flags (geom : Geometry) (rm : ResourceManager)
    (st : RendererState) (inp : FrameInput) (snap : Snapshot) :
    (updateGate geom rm st inp snap).1.renderInfoUpdating = true ∧
    (updateGate geom rm st inp snap).1.transactionRecordsUpdating = true := by
  unfold updateGate
  cases st.lastUpdate with
  | none => exact ⟨rfl, rfl⟩
  | some lu =>
    by_cases h : duration_since inp.now lu < UPDATE_INTERVAL <;>
      simp [h, drainedState]

/-- Embeds `Renderer::render` spawns a fetch only when that cache's flag was clear,
and after the call the flag is the old flag OR-ed with "spawned". -/
theorem renderStep_spawn_flags (geom : Geometry) (rm : ResourceManager)
    (st : RendererState) (inp : FrameInput) :
    ((renderStep geom rm st inp).spawnedRenderInfo = true →
      st.renderInfoUpdating = false) ∧
    (renderStep geom rm st inp).state.renderInfoUpdating =
      (st.renderInfoUpdating || (renderStep geom rm st inp).spawnedRenderInfo) ∧
    ((renderStep geom rm st inp).spawnedTransactions = true →
      st.transactionRecordsUpdating = false) ∧
    (renderStep geom rm st inp).state.transactionRecordsUpdating =
      (st.transactionRecordsUpdating ||
        (renderStep geom rm st inp).spawnedTransactions) := by
  by_cases hz : inp.windowSize.width = 0 ∨ inp.windowSize.height = 0
  · unfold renderStep
    simp [hz]
  · cases hc : st.renderInfoCache with
    | none =>
      unfold renderStep
      by_cases hri : st.renderInfoUpdating <;> simp [hz, hc, hri]
    | some snap =>
      rw [renderStep_main geom rm st inp snap hz hc]
      refine ⟨?_, ?_, ?_, ?_⟩
      · show (!st.renderInfoUpdating) = true → st.renderInfoUpdating = false
        simp
      · show (inner_render _ _ _ _ _ _).1.renderInfoUpdating =
          (st.renderInfoUpdating || !st.renderInfoUpdating)
        rw [(inner_render_flags _ _ _ _ _ _).1,
          (updateGate_flags geom rm st inp snap).1]
        simp
      · show (!st.transactionRecordsUpdating) = true →
          st.transactionRecordsUpdating = false
        simp
      · show (inner_render _ _ _ _ _ _).1.transactionRecordsUpdating =
          (st.transactionRecordsUpdating || !st.transactionRecordsUpdating)
        rw [(inner_render_flags _ _ _ _ _ _).2,
          (updateGate_flags geom rm st inp snap).2]
        simp

theorem traceStep_inv (geom : Geometry) (rm : ResourceManager)
    (ts : TraceState) (e : RenderEvent) (h : cacheInv ts) :
    cacheInv (traceStep geom rm ts e) := by
  obtain ⟨h1, h2, h3, h4⟩ := h
  cases e with
  | frame inp =>
    obtain ⟨f1, f2, f3, f4⟩ := renderStep_spawn_flags geom rm ts.st inp
    unfold traceStep cacheInv
    dsimp only
    refine ⟨?_, ?_, ?_, ?_⟩
    · cases hsp : (renderStep geom rm ts.st inp).spawnedRenderInfo
      · simpa using h1
      · have h0 := h3 (f1 hsp)
        simp [h0]
    · cases hsp : (renderStep geom rm ts.st inp).spawnedTransactions
      · simpa using h2
      · have h0 := h4 (f3 hsp)
        simp [h0]
    · intro hflag
      rw [f2] at hflag
      obtain ⟨hb1, hb2⟩ := Bool.or_eq_false_iff.mp hflag
      rw [hb2]
      simp [h3 hb1]
    · intro hflag
      rw [f4] at hflag
      obtain ⟨hb1, hb2⟩ := Bool.or_eq_false_iff.mp hflag
      rw [hb2]
      simp [h4 hb1]
  | renderInfoDone snap =>
    show cacheInv (if ts.inFlightRI = 0 then ts else _)
    by_cases h0 : ts.inFlightRI = 0
    · rw [if_pos h0]
      exact ⟨h1, h2, h3, h4⟩
    · rw [if_neg h0]
      refine ⟨?_, ?_, ?_, ?_⟩
      · show ts.inFlightRI - 1 ≤ 1
        omega
      · show ts.inFlightTx ≤ 1
        exact h2
      · intro _
        show ts.inFlightRI - 1 = 0
        omega
      · show ts.st.transactionRecordsUpdating = false → ts.inFlightTx = 0
        exact h4
  | renderInfoPanic =>
    show cacheInv (if ts.inFlightRI = 0 then ts else _)
    by_cases h0 : ts.inFlightRI = 0
    · rw [if_pos h0]
      exact ⟨h1, h2, h3, h4⟩
    · rw [if_neg h0]
      refine ⟨?_, ?_, ?_, ?_⟩
      · show ts.inFlightRI - 1 ≤ 1
        omega
      · show ts.inFlightTx ≤ 1
        exact h2
      · intro hf
        exact absurd (h3 hf) h0
      · show ts.st.transactionRecordsUpdating = false → ts.inFlightTx = 0
        exact h4
  | transactionsDone tx =>
    show cacheInv (if ts.inFlightTx = 0 then ts else _)
    by_cases h0 : ts.inFlightTx = 0
    · rw [if_pos h0]
      exact ⟨h1, h2, h3, h4⟩
    · rw [if_neg h0]
      refine ⟨?_, ?_, ?_, ?_⟩
      · show ts.inFlightRI ≤ 1
        exact h1
      · show ts.inFlightTx - 1 ≤ 1
        omega
      · show ts.st.renderInfoUpdating = false → ts.inFlightRI = 0
        exact h3
      · intro _
        show ts.inFlightTx - 1 = 0
        omega
  | transactionsPanic =>
    show cacheInv (if ts.inFlightTx = 0 then ts else _)
    by_cases h0 : ts.inFlightTx = 0
    · rw [if_pos h0]
      exact ⟨h1, h2, h3, h4⟩
    · rw [if_neg h0]
      refine ⟨?_, ?_, ?_, ?_⟩
      · show ts.inFlightRI ≤ 1
        exact h1
      · show ts.inFlightTx - 1 ≤ 1
        omega
      · show ts.st.renderInfoUpdating = false → ts.inFlightRI = 0
        exact h3
      · intro hf
        exact absurd (h4 hf) h0

theorem execTrace_inv (geom : Geometry) (rm : ResourceManager)
    (evs : List RenderEvent) : cacheInv (execTrace geom rm evs) := by
  have key : ∀ (evs : List RenderEvent) (ts : TraceState), cacheInv ts →
      cacheInv (evs.foldl (traceStep geom rm) ts) := by
    intro evs
    induction evs with
    | nil => intro ts h; simpa using h
    | cons e es ih => intro ts h; exact ih _ (traceStep_inv geom rm ts e h)
  exact key evs ⟨initialState, 0, 0⟩
    ⟨Nat.zero_le 1, Nat.zero_le 1, fun _ => rfl, fun _ => rfl⟩

/-- C1. For each snapshot cache (tile render-info and transaction
records), at most one asynchronous fetch is ever in flight: starting from
`Renderer::new`, along every event trace, each cache has at most one
outstanding fetch; the `updating` flag is `false` only when no fetch is
outstanding (it returns to `false` only when the outstanding fetch
completes); and a render call made while the flag is set spawns no second
fetch (`src/renderer.rs:188-217,225-243`). -/
theorem fetch_single_flight (geom : Geometry) (rm : ResourceManager)
    (evs : List RenderEvent) :
    cacheInv (execTrace geom rm evs) ∧
    (∀ inp, (execTrace geom rm evs).st.renderInfoUpdating = true →
      (renderStep geom rm (execTrace geom rm evs).st inp).spawnedRenderInfo
        = false) ∧
    (∀ inp, (execTrace geom rm evs).st.transactionRecordsUpdating = true →
      (renderStep geom rm (execTrace geom rm evs).st inp).spawnedTransactions
        = false) := by
  refine ⟨execTrace_inv geom rm evs, ?_, ?_⟩
  · intro inp hflag
    cases hsp : (renderStep geom rm (execTrace geom rm evs).st inp).spawnedRenderInfo
    · rfl
    · have := (renderStep_spawn_flags geom rm (execTrace geom rm evs).st inp).1 hsp
      rw [hflag] at this
      exact absurd this (by simp)
  · intro inp hflag
    cases hsp : (renderStep geom rm (execTrace geom rm evs).st inp).spawnedTransactions
    · rfl
    · have := (renderStep_spawn_flags geom rm
        (execTrace geom rm evs).st inp).2.2.1 hsp
      rw [hflag] at this
      exact absurd this (by simp)

theorem fetch_single_flight_witness :
    cacheInv (execTrace geom0 rm0 [.frame inpOk]) ∧
    (∀ inp, (execTrace geom0 rm0 [.frame inpOk]).st.renderInfoUpdating = true →
      (renderStep geom0 rm0
        (execTrace geom0 rm0 [.frame inpOk]).st inp).spawnedRenderInfo
        = false) ∧
    (∀ inp,
      (execTrace geom0 rm0 [.frame inpOk]).st.transactionRecordsUpdating
        = true →
      (renderStep geom0 rm0
        (execTrace geom0 rm0 [.frame inpOk]).st inp).spawnedTransactions
        = false) :=
  fetch_single_flight geom0 rm0 [.frame inpOk]

/-- C2, counterexample. The claim as stated fails on the code: when a
spawned render-info fetch fails (the actor call's reply is an error), the
task panics at the `.unwrap()` (`src/renderer.rs:196-211`) before
`updating.store(false, ..)` ever runs, so the cache's `updating` flag is NOT
cleared — it remains `true` — and a later render call spawns no new fetch,
contradicting "the flag is cleared so that a later render call may issue a
new fetch". Concrete trace: one render call from the fresh renderer, then
the fetch fails. -/
theorem fetch_failure_counterexample :
    (execTrace geom0 rm0 [.frame inpOk, .renderInfoPanic]).st.renderInfoUpdating
      = true ∧
    (renderStep geom0 rm0
      (execTrace geom0 rm0 [.frame inpOk, .renderInfoPanic]).st
        inpOk).spawnedRenderInfo = false := by
  with_unfolding_all decide

/-- C2 (amended). If an asynchronous snapshot fetch fails because the
game actor is unreachable, the fetch task panics: the previously cached
snapshot is retained unchanged and the `updating` flag is left exactly as it
was (it is never cleared), so — since the flag was set when the fetch was
spawned — no later render call will issue a new fetch for that cache. No
failure handling or logging exists in the fetch task
(`src/renderer.rs:195-216`). -/
theorem fetch_failure_amended (geom : Geometry) (rm : ResourceManager)
    (evs : List RenderEvent) (inp : FrameInput) :
    (traceStep geom rm (execTrace geom rm evs) .renderInfoPanic).st.renderInfoCache
      = (execTrace geom rm evs).st.renderInfoCache ∧
    (traceStep geom rm (execTrace geom rm evs)
        .renderInfoPanic).st.renderInfoUpdating
      = (execTrace geom rm evs).st.renderInfoUpdating ∧
    ((execTrace geom rm evs).st.renderInfoUpdating = true →
      (renderStep geom rm
        (traceStep geom rm (execTrace geom rm evs) .renderInfoPanic).st
        inp).spawnedRenderInfo = false) := by
  have hst : (traceStep geom rm (execTrace geom rm evs) .renderInfoPanic).st
      = (execTrace geom rm evs).st := by
    unfold traceStep
    by_cases h0 : (execTrace geom rm evs).inFlightRI = 0 <;> simp [h0]
  refine ⟨by rw [hst], by rw [hst], ?_⟩
  intro hflag
  rw [hst]
  cases hsp : (renderStep geom rm (execTrace geom rm evs).st inp).spawnedRenderInfo
  · rfl
  · have := (renderStep_spawn_flags geom rm (execTrace geom rm evs).st inp).1 hsp
    rw [hflag] at this
    exact absurd this (by simp)

theorem fetch_failure_amended_witness :
    (traceStep geom0 rm0 (execTrace geom0 rm0 [.frame inpOk])
        .renderInfoPanic).st.renderInfoCache
      = (execTrace geom0 rm0 [.frame inpOk]).st.renderInfoCache ∧
    (traceStep geom0 rm0 (execTrace geom0 rm0 [.frame inpOk])
        .renderInfoPanic).st.renderInfoUpdating
      = (execTrace geom0 rm0 [.frame inpOk]).st.renderInfoUpdating ∧
    ((execTrace geom0 rm0 [.frame inpOk]).st.renderInfoUpdating = true →
      (renderStep geom0 rm0
        (traceStep geom0 rm0 (execTrace geom0 rm0 [.frame inpOk])
          .renderInfoPanic).st inpOk).spawnedRenderInfo = false) :=
  fetch_failure_amended geom0 rm0 [.frame inpOk] inpOk

end Automancy
